import Mathlib

/-!
The scrape cycle of pve-exporter (`main.go`).

A shallow embedding of `Exporter.Collect` and of what it calls:

* the part of `encoding/json` that `json.Unmarshal` runs on the two response
  types (syntax scan, then the store into the struct fields);
* `NewExporter`, the two requests and the HTTP round trip, the latter taken
  from a `World` (what `http.NewRequest`, `client.Do` and `io.ReadAll` answer);
* the metric channel, as the list of samples sent on it, in order.

Modelling choices:

* a response body is text (`String`), i.e. valid UTF-8;
* `uint64` is `Nat` (the decoder only stores values below `2^64`), `int` is the
  64-bit `int` of the platforms the exporter is built for, as `Int`;
* `float64` values are kept symbolically (`Float64`): the conversion of an
  integer, or the result of `strconv.ParseFloat` on a number literal; the
  rounding of the conversion is not modelled;
* the decoder returns its first error, where `encoding/json` saves its first
  type error and goes on decoding: `json.Unmarshal` returns the same error,
  and the exporter reads the decoded value only when there is none;
* the scanner runs on fuel, the length of the text, which is shown to be
  enough (`parseJSON_fuel_enough`);
* logging and the blocking of the channel send are left out, apart from the
  list of errors logged.
-/

namespace PveExporter

/-! ## JSON text: the scanner of `encoding/json` -/

/-- A JSON value as the scanner delimits it. A number keeps its literal, which
is what the decoder hands to `strconv`. -/
inductive JSON where
  | null
  | bool (b : Bool)
  | num (lit : String)
  | str (s : String)
  | arr (elems : List JSON)
  | obj (members : List (String × JSON))
  deriving Repr

/-- The scanner gives up on input nested deeper than this (`maxNestingDepth`). -/
def maxNestingDepth : Nat := 10000

/-- The four characters `isSpace` of scanner.go accepts. -/
def isSpace (c : Char) : Bool :=
  c == ' ' || c == '\t' || c == '\r' || c == '\n'

def skipSpace : List Char → List Char
  | [] => []
  | c :: cs => if isSpace c then skipSpace cs else c :: cs

def isDigit (c : Char) : Bool := '0' ≤ c && c ≤ '9'

/-- The longest prefix of digits, and what follows it. -/
def spanDigits : List Char → List Char × List Char
  | [] => ([], [])
  | c :: cs =>
    if isDigit c then ((spanDigits cs).1.cons c, (spanDigits cs).2) else ([], c :: cs)

/-- The integer part of a number: `0`, or a non-zero digit and more digits. -/
def scanIntPart : List Char → Option (List Char × List Char)
  | [] => none
  | c :: cs =>
    if c == '0' then some ([c], cs)
    else if isDigit c then some (c :: (spanDigits cs).1, (spanDigits cs).2)
    else none

/-- An optional fraction: a dot and at least one digit. -/
def scanFracPart : List Char → Option (List Char × List Char)
  | '.' :: cs =>
    match spanDigits cs with
    | ([], _) => none
    | (ds, rest) => some ('.' :: ds, rest)
  | cs => some ([], cs)

/-- The digits of an exponent, after its optional sign. -/
def scanExpDigits (pre : List Char) (cs : List Char) : Option (List Char × List Char) :=
  match spanDigits cs with
  | ([], _) => none
  | (ds, rest) => some (pre ++ ds, rest)

/-- An optional exponent: `e` or `E`, an optional sign, at least one digit. -/
def scanExpPart : List Char → Option (List Char × List Char)
  | [] => some ([], [])
  | c :: cs =>
    if c == 'e' || c == 'E' then
      match cs with
      | [] => none
      | s :: cs2 =>
        if s == '+' || s == '-' then scanExpDigits [c, s] cs2 else scanExpDigits [c] (s :: cs2)
    else some ([], c :: cs)

/-- A number literal without its sign: integer part, optional fraction,
optional exponent. -/
def scanUnsigned (cs : List Char) : Option (List Char × List Char) :=
  match scanIntPart cs with
  | none => none
  | some (ip, r1) =>
    match scanFracPart r1 with
    | none => none
    | some (fp, r2) =>
      match scanExpPart r2 with
      | none => none
      | some (ep, r3) => some (ip ++ fp ++ ep, r3)

/-- A number literal at the head of the input, and what follows it. -/
def scanNumber : List Char → Option (List Char × List Char)
  | [] => none
  | c :: cs =>
    if c == '-' then (scanUnsigned cs).map (fun r => (c :: r.1, r.2))
    else scanUnsigned (c :: cs)

/-- The value of a hex digit of a `\u` escape, in either case. -/
def hexDigit (c : Char) : Option Nat :=
  let n := c.toNat
  if 48 ≤ n ∧ n ≤ 57 then some (n - 48)
  else if 97 ≤ n ∧ n ≤ 102 then some (n - 87)
  else if 65 ≤ n ∧ n ≤ 70 then some (n - 55)
  else none

/-- The one-letter escapes the scanner accepts, with what they stand for. -/
def escapes : List (Char × Char) :=
  [('"', '"'), ('\\', '\\'), ('/', '/'), ('b', Char.ofNat 8), ('f', Char.ofNat 12),
   ('n', '\n'), ('r', '\r'), ('t', '\t')]

/-- What a string literal is made of: a character, written plainly or as a
one-letter escape, or the 16-bit unit of a `\u` escape. -/
inductive CodeUnit where
  | char (c : Char)
  | escaped (n : Nat)

/-- Where the scanner stands inside a string literal: between characters,
after a backslash, or after `\u` and some hex digits of the given value. -/
inductive StringState where
  | plain
  | esc
  | hex (seen : Nat) (value : Nat)

/-- The units of a string literal from inside it up to its closing quote, and
what follows the quote. A control character, an unknown escape, a `\u`
without four hex digits or a missing closing quote is an error. -/
def scanUnits : StringState → List Char → Option (List CodeUnit × List Char)
  | _, [] => none
  | .plain, c :: cs =>
    if c == '"' then some ([], cs)
    else if c == '\\' then scanUnits .esc cs
    else if c.toNat < 32 then none
    else (scanUnits .plain cs).map (fun r => (CodeUnit.char c :: r.1, r.2))
  | .esc, c :: cs =>
    if c == 'u' then scanUnits (.hex 0 0) cs
    else
      match escapes.lookup c with
      | none => none
      | some ch => (scanUnits .plain cs).map (fun r => (CodeUnit.char ch :: r.1, r.2))
  | .hex seen value, c :: cs =>
    match hexDigit c with
    | none => none
    | some d =>
      if seen = 3 then
        (scanUnits .plain cs).map (fun r => (CodeUnit.escaped (value * 16 + d) :: r.1, r.2))
      else scanUnits (.hex (seen + 1) (value * 16 + d)) cs

/-- U+FFFD, which `unquote` writes for a surrogate without its partner. -/
def replacementChar : Char := Char.ofNat 0xFFFD

def isSurrogate (n : Nat) : Bool := 0xD800 ≤ n && n < 0xE000

/-- The rune of a surrogate pair (`utf16.DecodeRune`), if it is one. -/
def decodeSurrogates (hi lo : Nat) : Option Char :=
  if 0xD800 ≤ hi ∧ hi < 0xDC00 ∧ 0xDC00 ≤ lo ∧ lo < 0xE000 then
    some (Char.ofNat ((hi - 0xD800) * 1024 + (lo - 0xDC00) + 0x10000))
  else none

/-- The text of a string literal (`unquote`), with the surrogate of a `\u`
escape still waiting for its partner, if there is one: it joins the `\u`
escape right after it if the two are a pair, and is U+FFFD otherwise. -/
def unquoteFrom : Option Nat → List CodeUnit → List Char
  | none, [] => []
  | some _, [] => [replacementChar]
  | none, .char c :: us => c :: unquoteFrom none us
  | some _, .char c :: us => replacementChar :: c :: unquoteFrom none us
  | none, .escaped n :: us =>
    if isSurrogate n then unquoteFrom (some n) us else Char.ofNat n :: unquoteFrom none us
  | some hi, .escaped lo :: us =>
    match decodeSurrogates hi lo with
    | some ch => ch :: unquoteFrom none us
    | none =>
      if isSurrogate lo then replacementChar :: unquoteFrom (some lo) us
      else replacementChar :: Char.ofNat lo :: unquoteFrom none us

def unquote (us : List CodeUnit) : List Char := unquoteFrom none us

/-- A string literal after its opening quote: its text, and what follows its
closing quote. -/
def scanString (cs : List Char) : Option (String × List Char) :=
  (scanUnits .plain cs).map (fun r => (String.mk (unquote r.1), r.2))

/-- The remainder after the given literal, if the input starts with it. -/
def stripLiteral : List Char → List Char → Option (List Char)
  | [], cs => some cs
  | _ :: _, [] => none
  | l :: ls, c :: cs => if l == c then stripLiteral ls cs else none

mutual
/-- One value at the head of the input (leading space already skipped), with
`depth` containers open around it. -/
def parseValue : Nat → Nat → List Char → Option (JSON × List Char)
  | 0, _, _ => none
  | fuel + 1, depth, cs =>
    match cs with
    | [] => none
    | c :: rest =>
      if c == '{' then
        if maxNestingDepth ≤ depth then none
        else
          match skipSpace rest with
          | [] => none
          | d :: rest1 =>
            if d == '}' then some (JSON.obj [], rest1)
            else parseMembers fuel (depth + 1) (d :: rest1) []
      else if c == '[' then
        if maxNestingDepth ≤ depth then none
        else
          match skipSpace rest with
          | [] => none
          | d :: rest1 =>
            if d == ']' then some (JSON.arr [], rest1)
            else parseElements fuel (depth + 1) (d :: rest1) []
      else if c == '"' then
        match scanString rest with
        | some (s, rest1) => some (JSON.str s, rest1)
        | none => none
      else if c == '-' || isDigit c then
        match scanNumber (c :: rest) with
        | some (lit, rest1) => some (JSON.num (String.mk lit), rest1)
        | none => none
      else if c == 't' then
        match stripLiteral ['r', 'u', 'e'] rest with
        | some rest1 => some (JSON.bool true, rest1)
        | none => none
      else if c == 'f' then
        match stripLiteral ['a', 'l', 's', 'e'] rest with
        | some rest1 => some (JSON.bool false, rest1)
        | none => none
      else if c == 'n' then
        match stripLiteral ['u', 'l', 'l'] rest with
        | some rest1 => some (JSON.null, rest1)
        | none => none
      else none
/-- The elements of an array from the next element on, up to the closing
bracket; `acc` holds the elements already read, last first. -/
def parseElements : Nat → Nat → List Char → List JSON → Option (JSON × List Char)
  | 0, _, _, _ => none
  | fuel + 1, depth, cs, acc =>
    match parseValue fuel depth cs with
    | none => none
    | some (v, rest) =>
      match skipSpace rest with
      | [] => none
      | d :: rest1 =>
        if d == ',' then parseElements fuel depth (skipSpace rest1) (v :: acc)
        else if d == ']' then some (JSON.arr (v :: acc).reverse, rest1)
        else none
/-- The members of an object from the next key on, up to the closing brace. -/
def parseMembers : Nat → Nat → List Char → List (String × JSON) → Option (JSON × List Char)
  | 0, _, _, _ => none
  | fuel + 1, depth, cs, acc =>
    match cs with
    | [] => none
    | q :: rest =>
      if q == '"' then
        match scanString rest with
        | none => none
        | some (key, rest1) =>
          match skipSpace rest1 with
          | [] => none
          | colon :: rest2 =>
            if colon == ':' then
              match parseValue fuel depth (skipSpace rest2) with
              | none => none
              | some (v, rest3) =>
                match skipSpace rest3 with
                | [] => none
                | d :: rest4 =>
                  if d == ',' then parseMembers fuel depth (skipSpace rest4) ((key, v) :: acc)
                  else if d == '}' then some (JSON.obj ((key, v) :: acc).reverse, rest4)
                  else none
            else none
      else none
end

/-- The value a whole text denotes (`checkValid`, then the scan the decoder
repeats): one value, with only space around it. The fuel is the length of
the text and one more. -/
def parseJSON (body : String) : Option JSON :=
  match parseValue (body.data.length + 1) 0 (skipSpace body.data) with
  | none => none
  | some (v, rest) =>
    match skipSpace rest with
    | [] => some v
    | _ :: _ => none

/-! ## Numbers: what `strconv` makes of a literal -/

/-- The value of a run of decimal digits. -/
def digitsVal (ds : List Char) : Nat :=
  ds.foldl (fun acc c => acc * 10 + (c.toNat - '0'.toNat)) 0

/-- The function `strconv.ParseUint(s, 10, 64)` on a number literal: digits
only, and a value below `2^64`. -/
def parseUint (lit : String) : Option Nat :=
  if lit.data ≠ [] ∧ lit.data.all isDigit = true ∧ digitsVal lit.data < 2 ^ 64 then
    some (digitsVal lit.data)
  else none

/-- The function `strconv.ParseInt(s, 10, 64)` on a number literal: an
optional minus sign, digits only, and a value of `[-2^63, 2^63)`. -/
def parseInt (lit : String) : Option Int :=
  match lit.data with
  | '-' :: ds =>
    if ds ≠ [] ∧ ds.all isDigit = true ∧ digitsVal ds ≤ 2 ^ 63 then
      some (-(digitsVal ds : Int))
    else none
  | ds =>
    if ds ≠ [] ∧ ds.all isDigit = true ∧ digitsVal ds < 2 ^ 63 then
      some (digitsVal ds : Int)
    else none

/-- A `float64`, kept symbolically: the conversion of an integer
(`float64(x)`, and the constants `0` and `1`), or what `strconv.ParseFloat`
returns for a number literal. -/
inductive Float64 where
  | ofInt (i : Int)
  | parsed (lit : String)
  deriving DecidableEq, Repr

/-- From this magnitude on a decimal rounds to infinity: the largest `float64`
is `2^1024 - 2^971`, and half a unit in the last place above it is this. -/
def float64Overflow : Nat := 2 ^ 1024 - 2 ^ 970

/-- The sign and the digits of an exponent part (`e`, sign, digits). -/
def expParts : List Char → Bool × List Char
  | _ :: s :: r => if s == '-' then (true, r) else if s == '+' then (false, r) else (false, s :: r)
  | _ => (false, [])

/-- Whether `strconv.ParseFloat(s, 64)` returns a finite value for a number
literal, i.e. no range error: the magnitude `m * 10^e` of the literal is
below `float64Overflow`. -/
def floatInRange (lit : String) : Bool :=
  let cs := match lit.data with
    | '-' :: r => r
    | r => r
  let ip := spanDigits cs
  let fp := match ip.2 with
    | '.' :: r => spanDigits r
    | r => ([], r)
  let ex := expParts fp.2
  let m := digitsVal (ip.1 ++ fp.1)
  let e : Int := (if ex.1 then -(digitsVal ex.2 : Int) else (digitsVal ex.2 : Int)) - fp.1.length
  if 0 ≤ e then decide (m * 10 ^ e.toNat < float64Overflow)
  else decide (m < float64Overflow * 10 ^ (-e).toNat)

/-! ## The decoder of `encoding/json` on the two response types -/

/-- The ways a step of the scrape fails. -/
inductive Error where
  /-- The error of `http.NewRequest`: the URL does not parse. -/
  | url (u : String)
  /-- The error of `client.Do`. -/
  | transport (msg : String)
  /-- The error of `io.ReadAll`. -/
  | read (msg : String)
  /-- A `*json.SyntaxError`. -/
  | malformed
  /-- A `*json.UnmarshalTypeError`: the JSON value and the Go type. -/
  | unmarshalType (value goType : String)
  deriving DecidableEq, Repr

/-- The least rune of a case-folding orbit, for the orbits that hold an ASCII
letter: the letter in upper case, also for U+017F (long s) and U+212A
(Kelvin sign). Other runes are left alone here: they fold to no ASCII
letter, and the field names below are ASCII. -/
def foldRune (c : Char) : Char :=
  if 'a' ≤ c ∧ c ≤ 'z' then Char.ofNat (c.toNat - 32)
  else if c = Char.ofNat 0x17F then 'S'
  else if c = Char.ofNat 0x212A then 'K'
  else c

def foldName (s : String) : String := String.mk (s.data.map foldRune)

/-- Whether an object key selects the struct field of this JSON name: the
exact name, or one equal to it under case folding. -/
def keyIs (name key : String) : Bool := foldName key == foldName name

/-- The `Value` of an `UnmarshalTypeError` for a JSON value of the wrong kind. -/
def kindName : JSON → String
  | .null => "null"
  | .bool _ => "bool"
  | .num _ => "number"
  | .str _ => "string"
  | .arr _ => "array"
  | .obj _ => "object"

instance instDecidableEqExcept {ε α : Type} [DecidableEq ε] [DecidableEq α] :
    DecidableEq (Except ε α)
  | .ok a, .ok b => if h : a = b then isTrue (by rw [h]) else isFalse (by simp [h])
  | .error a, .error b => if h : a = b then isTrue (by rw [h]) else isFalse (by simp [h])
  | .ok _, .error _ => isFalse (by simp)
  | .error _, .ok _ => isFalse (by simp)

/-- Store into a `uint64` that holds `cur`: `null` has no effect, a number
must pass `ParseUint`, anything else is a type error. -/
def storeUint64 (v : JSON) (cur : Nat) : Except Error Nat :=
  match v with
  | .null => .ok cur
  | .num lit =>
    match parseUint lit with
    | some n => .ok n
    | none => .error (.unmarshalType ("number " ++ lit) "uint64")
  | other => .error (.unmarshalType (kindName other) "uint64")

/-- Store into an `int`. -/
def storeInt (v : JSON) (cur : Int) : Except Error Int :=
  match v with
  | .null => .ok cur
  | .num lit =>
    match parseInt lit with
    | some n => .ok n
    | none => .error (.unmarshalType ("number " ++ lit) "int")
  | other => .error (.unmarshalType (kindName other) "int")

/-- Store into a `float64`. -/
def storeFloat64 (v : JSON) (cur : Float64) : Except Error Float64 :=
  match v with
  | .null => .ok cur
  | .num lit =>
    if floatInRange lit then .ok (.parsed lit)
    else .error (.unmarshalType ("number " ++ lit) "float64")
  | other => .error (.unmarshalType (kindName other) "float64")

/-- Store into a `string`. -/
def storeString (v : JSON) (cur : String) : Except Error String :=
  match v with
  | .null => .ok cur
  | .str s => .ok s
  | other => .error (.unmarshalType (kindName other) "string")

structure Datastore where
  Status : Int
  Name : String
  Available : Int
  Used : Int
  Total : Int
  deriving DecidableEq, Repr

structure VirtualMachine where
  CPU : Float64
  CPUs : Nat
  Disk : Nat
  DiskRead : Nat
  DiskWrite : Nat
  MaxDisk : Nat
  MaxMem : Nat
  Mem : Nat
  Name : String
  NetIn : Nat
  NetOut : Nat
  PID : Nat
  Status : String
  Uptime : Nat
  VMID : Nat
  deriving DecidableEq, Repr

/-- The zero value of `Datastore`. -/
def Datastore.zero : Datastore :=
  { Status := 0, Name := "", Available := 0, Used := 0, Total := 0 }

/-- The zero value of `VirtualMachine`. -/
def VirtualMachine.zero : VirtualMachine :=
  { CPU := .ofInt 0, CPUs := 0, Disk := 0, DiskRead := 0, DiskWrite := 0, MaxDisk := 0,
    MaxMem := 0, Mem := 0, Name := "", NetIn := 0, NetOut := 0, PID := 0, Status := "",
    Uptime := 0, VMID := 0 }

/-- A Go slice as the decoder sees it: its elements, and the slots of its
backing array behind them that an earlier store has written (`spare`). The
decoder stores the i-th element of an array into the i-th slot as it
stands, so a slot written before shows through. -/
structure Slice (α : Type) where
  elems : List α
  spare : List α
  deriving DecidableEq, Repr

/-- The nil slice. -/
def Slice.nil {α : Type} : Slice α := { elems := [], spare := [] }

structure VirtualMachineResponse where
  Data : Slice VirtualMachine
  deriving DecidableEq, Repr

structure DatastoreResponse where
  Data : Slice Datastore
  deriving DecidableEq, Repr

/-- One member of an object stored into a `Datastore`: the field its key
selects takes the value; a key that selects none is skipped. -/
def setDatastoreField (s : Datastore) (key : String) (v : JSON) : Except Error Datastore :=
  if keyIs "active" key then (storeInt v s.Status).map (fun x => { s with Status := x })
  else if keyIs "storage" key then (storeString v s.Name).map (fun x => { s with Name := x })
  else if keyIs "avail" key then (storeInt v s.Available).map (fun x => { s with Available := x })
  else if keyIs "used" key then (storeInt v s.Used).map (fun x => { s with Used := x })
  else if keyIs "total" key then (storeInt v s.Total).map (fun x => { s with Total := x })
  else .ok s

/-- One member of an object stored into a `VirtualMachine`. The fields
without a tag go by their Go names. -/
def setVMField (vm : VirtualMachine) (key : String) (v : JSON) : Except Error VirtualMachine :=
  if keyIs "cpu" key then (storeFloat64 v vm.CPU).map (fun x => { vm with CPU := x })
  else if keyIs "CPUs" key then (storeUint64 v vm.CPUs).map (fun x => { vm with CPUs := x })
  else if keyIs "Disk" key then (storeUint64 v vm.Disk).map (fun x => { vm with Disk := x })
  else if keyIs "diskread" key then
    (storeUint64 v vm.DiskRead).map (fun x => { vm with DiskRead := x })
  else if keyIs "diskwrite" key then
    (storeUint64 v vm.DiskWrite).map (fun x => { vm with DiskWrite := x })
  else if keyIs "maxdisk" key then
    (storeUint64 v vm.MaxDisk).map (fun x => { vm with MaxDisk := x })
  else if keyIs "maxmem" key then (storeUint64 v vm.MaxMem).map (fun x => { vm with MaxMem := x })
  else if keyIs "mem" key then (storeUint64 v vm.Mem).map (fun x => { vm with Mem := x })
  else if keyIs "name" key then (storeString v vm.Name).map (fun x => { vm with Name := x })
  else if keyIs "netin" key then (storeUint64 v vm.NetIn).map (fun x => { vm with NetIn := x })
  else if keyIs "netout" key then (storeUint64 v vm.NetOut).map (fun x => { vm with NetOut := x })
  else if keyIs "PID" key then (storeUint64 v vm.PID).map (fun x => { vm with PID := x })
  else if keyIs "status" key then (storeString v vm.Status).map (fun x => { vm with Status := x })
  else if keyIs "Uptime" key then (storeUint64 v vm.Uptime).map (fun x => { vm with Uptime := x })
  else if keyIs "vmid" key then (storeUint64 v vm.VMID).map (fun x => { vm with VMID := x })
  else .ok vm

/-- The members of an object, stored one after the other, in the order of the
text. The first error is the one returned. -/
def storeMembers {α : Type} (setField : α → String → JSON → Except Error α) :
    List (String × JSON) → α → Except Error α
  | [], cur => .ok cur
  | (key, v) :: ms, cur =>
    match setField cur key v with
    | .error err => .error err
    | .ok next => storeMembers setField ms next

/-- Store into a `Datastore` that holds `cur`. -/
def storeDatastore (v : JSON) (cur : Datastore) : Except Error Datastore :=
  match v with
  | .null => .ok cur
  | .obj ms => storeMembers setDatastoreField ms cur
  | other => .error (.unmarshalType (kindName other) "main.Datastore")

/-- Store into a `VirtualMachine` that holds `cur`. -/
def storeVM (v : JSON) (cur : VirtualMachine) : Except Error VirtualMachine :=
  match v with
  | .null => .ok cur
  | .obj ms => storeMembers setVMField ms cur
  | other => .error (.unmarshalType (kindName other) "main.VirtualMachine")

/-- The elements of an array, each stored into the slot of its index: the
slot as it stands if the backing array has one written (`slots`), a zero
value otherwise. -/
def storeElements {α : Type} (store : JSON → α → Except Error α) (zero : α) :
    List JSON → List α → Except Error (List α)
  | [], _ => .ok []
  | v :: vs, slots =>
    match store v (slots.headD zero) with
    | .error err => .error err
    | .ok x =>
      match storeElements store zero vs slots.tail with
      | .error err => .error err
      | .ok xs => .ok (x :: xs)

/-- Store into a slice: `null` makes it nil, an empty array a fresh empty
slice, an array of n elements a slice of length n over the same backing
array; anything else is a type error. -/
def storeSlice {α : Type} (store : JSON → α → Except Error α) (zero : α) (goType : String)
    (v : JSON) (cur : Slice α) : Except Error (Slice α) :=
  match v with
  | .null => .ok Slice.nil
  | .arr [] => .ok Slice.nil
  | .arr (e :: es) =>
    match storeElements store zero (e :: es) (cur.elems ++ cur.spare) with
    | .error err => .error err
    | .ok xs => .ok { elems := xs, spare := (cur.elems ++ cur.spare).drop xs.length }
  | other => .error (.unmarshalType (kindName other) goType)

def setVMResponseField (r : VirtualMachineResponse) (key : String) (v : JSON) :
    Except Error VirtualMachineResponse :=
  if keyIs "data" key then
    (storeSlice storeVM VirtualMachine.zero "[]main.VirtualMachine" v r.Data).map
      (fun x => { r with Data := x })
  else .ok r

def setDatastoreResponseField (r : DatastoreResponse) (key : String) (v : JSON) :
    Except Error DatastoreResponse :=
  if keyIs "data" key then
    (storeSlice storeDatastore Datastore.zero "[]main.Datastore" v r.Data).map
      (fun x => { r with Data := x })
  else .ok r

/-- The call `json.Unmarshal(resBody, &vmResponse)` on the zero
`vmResponse`: a syntax error if the text is not one JSON value; otherwise the
value is stored: `null` has no effect, an object sets the fields its keys
select, any other value is a type error. -/
def unmarshalVMResponse (resBody : String) : Except Error VirtualMachineResponse :=
  match parseJSON resBody with
  | none => .error .malformed
  | some .null => .ok { Data := Slice.nil }
  | some (.obj ms) => storeMembers setVMResponseField ms { Data := Slice.nil }
  | some other => .error (.unmarshalType (kindName other) "main.VirtualMachineResponse")

/-- The call `json.Unmarshal(resBody, &storageResponse)` on the zero
`storageResponse`. -/
def unmarshalDatastoreResponse (resBody : String) : Except Error DatastoreResponse :=
  match parseJSON resBody with
  | none => .error .malformed
  | some .null => .ok { Data := Slice.nil }
  | some (.obj ms) => storeMembers setDatastoreResponseField ms { Data := Slice.nil }
  | some other => .error (.unmarshalType (kindName other) "main.DatastoreResponse")

/-! ## The metric catalogue -/

def promNamespace : String := "pve"

/-- The function `prometheus.BuildFQName`: the non-empty parts joined by an
underscore, and nothing at all without a name. -/
def BuildFQName (ns subsystem name : String) : String :=
  if name = "" then ""
  else if ns ≠ "" ∧ subsystem ≠ "" then ns ++ "_" ++ subsystem ++ "_" ++ name
  else if ns ≠ "" then ns ++ "_" ++ name
  else if subsystem ≠ "" then subsystem ++ "_" ++ name
  else name

/-- A metric descriptor: its full name, its help text, its label names. -/
structure Desc where
  fqName : String
  help : String
  variableLabels : List String
  deriving DecidableEq, Repr

def NewDesc (fqName help : String) (variableLabels : List String) : Desc :=
  { fqName := fqName, help := help, variableLabels := variableLabels }

def up : Desc :=
  NewDesc (BuildFQName promNamespace "" "up") "Was the last query is successful." []

def cpu : Desc :=
  NewDesc (BuildFQName promNamespace "" "cpu_usage") "CPU Usage" ["vm_id", "vm_name"]

def netIn : Desc :=
  NewDesc (BuildFQName promNamespace "" "net_in") "Incoming network traffic" ["vm_id", "vm_name"]

def netOut : Desc :=
  NewDesc (BuildFQName promNamespace "" "net_out") "Outgoing network traffic" ["vm_id", "vm_name"]

def memUsage : Desc :=
  NewDesc (BuildFQName promNamespace "" "mem_usage") "VM memory usage" ["vm_id", "vm_name"]

def memMax : Desc :=
  NewDesc (BuildFQName promNamespace "" "mem_max") "VM memory max" ["vm_id", "vm_name"]

def datastoreTotal : Desc :=
  NewDesc (BuildFQName promNamespace "" "datastore_total") "Total datastore capacity" ["storage"]

def datastoreAvail : Desc :=
  NewDesc (BuildFQName promNamespace "" "datastore_avail") "Available datastore capacity"
    ["storage"]

def datastoreUsed : Desc :=
  NewDesc (BuildFQName promNamespace "" "datastore_used") "Used datastore capacity" ["storage"]

/-- A gauge sample: its descriptor, its value, and the values of the
descriptor's labels, in the descriptor's order. -/
structure Metric where
  desc : Desc
  value : Float64
  labelValues : List String
  deriving DecidableEq, Repr

/-- The function `prometheus.MustNewConstMetric` with `GaugeValue`. Every
call below passes as many label values as the descriptor has labels, and
decoded strings are valid UTF-8, so the call does not panic. -/
def MustNewConstMetric (desc : Desc) (value : Float64) (labelValues : List String) : Metric :=
  { desc := desc, value := value, labelValues := labelValues }

/-! ## Requests and the world they go to -/

structure Request where
  method : String
  url : String
  header : List (String × String)
  deriving DecidableEq, Repr

/-- A response of the round trip: its status code, and what `io.ReadAll`
makes of its body (the bytes, or a read error). -/
structure Response where
  StatusCode : Nat
  Body : Except String String

/-- What the exporter does not decide: whether `net/url` parses a URL, and
what the HTTP client answers to a request (a response, or an error). -/
structure World where
  urlParses : String → Bool
  roundTrip : Request → Except String Response

/-- The function `http.NewRequest(method, url, nil)` for the method the
exporter uses: it fails when the URL does not parse. -/
def NewRequest (w : World) (method url : String) : Except Error Request :=
  if w.urlParses url then .ok { method := method, url := url, header := [] }
  else .error (.url url)

/-- The method `req.Header.Add`. -/
def Request.addHeader (req : Request) (key value : String) : Request :=
  { req with header := req.header ++ [(key, value)] }

/-- The method `io.ReadAll(res.Body)`. -/
def ReadAll (res : Response) : Except Error String :=
  match res.Body with
  | .error msg => .error (.read msg)
  | .ok bytes => .ok bytes

/-- What one call of `Collect` leaves behind: the samples sent on the
channel, the requests handed to `client.Do`, both in order, and the errors
logged. -/
structure Scrape where
  ch : List Metric
  calls : List Request
  logged : List Error
  deriving DecidableEq, Repr

def Scrape.empty : Scrape := { ch := [], calls := [], logged := [] }

/-- The statement `ch <- m`. -/
def Scrape.send (s : Scrape) (m : Metric) : Scrape :=
  { s with ch := s.ch ++ [m] }

/-- The call `client.Do(req)`: the request is recorded, the world answers. -/
def clientDo (w : World) (req : Request) (s : Scrape) : Except Error Response × Scrape :=
  (match w.roundTrip req with
    | .error msg => .error (.transport msg)
    | .ok res => .ok res,
   { s with calls := s.calls ++ [req] })

/-! ## The exporter -/

structure Exporter where
  endpoint : String
  authorizationHeader : String
  deriving DecidableEq, Repr

def NewExporter (endpoint apiToken apiSecret : String) : Exporter :=
  { endpoint := endpoint ++ "/api2/json",
    authorizationHeader := "PVEAPIToken=" ++ apiToken ++ "=" ++ apiSecret }

/-- The conversion `int(x)` of a `uint64`, on a platform with a 64-bit `int`:
the value of the same 64 bits in two's complement. -/
def toInt (x : Nat) : Int :=
  if x % 2 ^ 64 < 2 ^ 63 then (x % 2 ^ 64 : Nat) else (x % 2 ^ 64 : Nat) - 2 ^ 64

/-- The function `strconv.Itoa`: the decimal numeral, with a minus sign for a
negative number. -/
def Itoa (i : Int) : String :=
  if i < 0 then "-" ++ Nat.repr i.natAbs else Nat.repr i.natAbs

/-- The body of the loop over the VM records: five samples. -/
def sendVM (s : Scrape) (vm : VirtualMachine) : Scrape :=
  let id := Itoa (toInt vm.VMID)
  let s := s.send (MustNewConstMetric netIn (.ofInt vm.NetIn) [id, vm.Name])
  let s := s.send (MustNewConstMetric netOut (.ofInt vm.NetOut) [id, vm.Name])
  let s := s.send (MustNewConstMetric memMax (.ofInt vm.MaxMem) [id, vm.Name])
  let s := s.send (MustNewConstMetric memUsage (.ofInt vm.Mem) [id, vm.Name])
  s.send (MustNewConstMetric cpu vm.CPU [id, vm.Name])

/-- The body of the loop over the datastore records: three samples. -/
def sendDatastore (s : Scrape) (d : Datastore) : Scrape :=
  let s := s.send (MustNewConstMetric datastoreTotal (.ofInt d.Total) [d.Name])
  let s := s.send (MustNewConstMetric datastoreAvail (.ofInt d.Available) [d.Name])
  s.send (MustNewConstMetric datastoreUsed (.ofInt d.Used) [d.Name])

/-- The method `collectVMmetrics`: the error it returns, if any, and the
state it leaves. -/
def collectVMmetrics (e : Exporter) (w : World) (s : Scrape) : Option Error × Scrape :=
  match NewRequest w "GET" (e.endpoint ++ "/nodes/localhost/qemu/") with
  | .error err => (some err, s)
  | .ok req =>
    match clientDo w (req.addHeader "Authorization" e.authorizationHeader) s with
    | (.error err, s1) => (some err, s1)
    | (.ok res, s1) =>
      match ReadAll res with
      | .error err => (some err, s1)
      | .ok resBody =>
        match unmarshalVMResponse resBody with
        | .error err => (some err, s1)
        | .ok vmResponse => (none, vmResponse.Data.elems.foldl sendVM s1)

/-- The method `collectStorageMetrics`. -/
def collectStorageMetrics (e : Exporter) (w : World) (s : Scrape) : Option Error × Scrape :=
  match NewRequest w "GET" (e.endpoint ++ "/nodes/localhost/storage/") with
  | .error err => (some err, s)
  | .ok req =>
    match clientDo w (req.addHeader "Authorization" e.authorizationHeader) s with
    | (.error err, s1) => (some err, s1)
    | (.ok res, s1) =>
      match ReadAll res with
      | .error err => (some err, s1)
      | .ok resBody =>
        match unmarshalDatastoreResponse resBody with
        | .error err => (some err, s1)
        | .ok storageResponse => (none, storageResponse.Data.elems.foldl sendDatastore s1)

/-- The method `collectFromAPI`: the VM metrics, then, unless that failed,
the storage metrics. -/
def collectFromAPI (e : Exporter) (w : World) (s : Scrape) : Option Error × Scrape :=
  match collectVMmetrics e w s with
  | (some err, s1) => (some err, s1)
  | (none, s1) =>
    match collectStorageMetrics e w s1 with
    | (some err, s2) => (some err, s2)
    | (none, s2) => (none, s2)

/-- The method `Collect`: after `collectFromAPI`, the `up` sample, 0 with the
error logged or 1. -/
def Collect (e : Exporter) (w : World) (s : Scrape) : Scrape :=
  match collectFromAPI e w s with
  | (some err, s1) =>
    { s1.send (MustNewConstMetric up (.ofInt 0) []) with logged := s1.logged ++ [err] }
  | (none, s1) => s1.send (MustNewConstMetric up (.ofInt 1) [])

/-- One scrape: `Collect` on a fresh channel. -/
def scrape (e : Exporter) (w : World) : Scrape := Collect e w Scrape.empty

/-! ## The steps of a scrape, for stating its properties -/

/-- The request of the VM step. -/
def vmRequest (e : Exporter) : Request :=
  { method := "GET", url := e.endpoint ++ "/nodes/localhost/qemu/",
    header := [("Authorization", e.authorizationHeader)] }

/-- The request of the storage step. -/
def storageRequest (e : Exporter) : Request :=
  { method := "GET", url := e.endpoint ++ "/nodes/localhost/storage/",
    header := [("Authorization", e.authorizationHeader)] }

/-- The fetch of a step: the request is built, sent, and the body of the
response read. -/
def fetch (w : World) (req : Request) : Except Error String :=
  if w.urlParses req.url then
    match w.roundTrip req with
    | .error msg => .error (.transport msg)
    | .ok res => ReadAll res
  else .error (.url req.url)

/-- The VM step: the fetch, then the decoding, down to the records. -/
def vmStep (e : Exporter) (w : World) : Except Error (List VirtualMachine) :=
  match fetch w (vmRequest e) with
  | .error err => .error err
  | .ok body =>
    match unmarshalVMResponse body with
    | .error err => .error err
    | .ok r => .ok r.Data.elems

/-- The storage step. -/
def storageStep (e : Exporter) (w : World) : Except Error (List Datastore) :=
  match fetch w (storageRequest e) with
  | .error err => .error err
  | .ok body =>
    match unmarshalDatastoreResponse body with
    | .error err => .error err
    | .ok r => .ok r.Data.elems

/-- The samples of one VM record, as the specification lists them: net_in,
net_out, mem_max, mem_usage, cpu_usage, each with the labels vm_id and
vm_name. -/
def vmSamples (vm : VirtualMachine) : List Metric :=
  [ { desc := netIn, value := .ofInt vm.NetIn, labelValues := [Itoa (toInt vm.VMID), vm.Name] },
    { desc := netOut, value := .ofInt vm.NetOut, labelValues := [Itoa (toInt vm.VMID), vm.Name] },
    { desc := memMax, value := .ofInt vm.MaxMem, labelValues := [Itoa (toInt vm.VMID), vm.Name] },
    { desc := memUsage, value := .ofInt vm.Mem, labelValues := [Itoa (toInt vm.VMID), vm.Name] },
    { desc := cpu, value := vm.CPU, labelValues := [Itoa (toInt vm.VMID), vm.Name] } ]

/-- The samples of one datastore record: datastore_total, datastore_avail,
datastore_used, each with the label storage. -/
def datastoreSamples (d : Datastore) : List Metric :=
  [ { desc := datastoreTotal, value := .ofInt d.Total, labelValues := [d.Name] },
    { desc := datastoreAvail, value := .ofInt d.Available, labelValues := [d.Name] },
    { desc := datastoreUsed, value := .ofInt d.Used, labelValues := [d.Name] } ]

/-- The `up` sample of the given value. -/
def upSample (v : Int) : Metric := { desc := up, value := .ofInt v, labelValues := [] }

/-- Whether a sample is one of the five VM metrics. -/
def isVMMetric (m : Metric) : Bool :=
  m.desc = netIn || m.desc = netOut || m.desc = memMax || m.desc = memUsage || m.desc = cpu

/-- Whether a sample is one of the three datastore metrics. -/
def isDatastoreMetric (m : Metric) : Bool :=
  m.desc = datastoreTotal || m.desc = datastoreAvail || m.desc = datastoreUsed

/-- Whether a sample is the `up` metric. -/
def isUpMetric (m : Metric) : Bool := m.desc = up

/-- A world whose two endpoints answer with the given status and bodies, for
an exporter of the given endpoint; any other request is a transport error. -/
def serving (endpoint : String) (status : Nat) (vmBody storageBody : Except String String) :
    World :=
  { urlParses := fun _ => true
    roundTrip := fun req =>
      if req.url = endpoint ++ "/api2/json/nodes/localhost/qemu/" then
        .ok { StatusCode := status, Body := vmBody }
      else if req.url = endpoint ++ "/api2/json/nodes/localhost/storage/" then
        .ok { StatusCode := status, Body := storageBody }
      else .error "no route to host" }

/-- The integer fields of a `VirtualMachine`, by JSON name. -/
def vmIntegerFields : List (String × (VirtualMachine → Nat)) :=
  [ ("CPUs", fun vm => vm.CPUs), ("Disk", fun vm => vm.Disk),
    ("diskread", fun vm => vm.DiskRead), ("diskwrite", fun vm => vm.DiskWrite),
    ("maxdisk", fun vm => vm.MaxDisk), ("maxmem", fun vm => vm.MaxMem),
    ("mem", fun vm => vm.Mem), ("netin", fun vm => vm.NetIn),
    ("netout", fun vm => vm.NetOut), ("PID", fun vm => vm.PID),
    ("Uptime", fun vm => vm.Uptime), ("vmid", fun vm => vm.VMID) ]

/-- The integer fields of a `Datastore`, by JSON name. -/
def datastoreIntegerFields : List (String × (Datastore → Int)) :=
  [ ("active", fun d => d.Status), ("avail", fun d => d.Available),
    ("used", fun d => d.Used), ("total", fun d => d.Total) ]

/-- Whether a top-level value is one `json.Unmarshal` stores into a struct
without a type error: an object, or `null`. -/
def isObjectOrNull : JSON → Bool
  | .null => true
  | .obj _ => true
  | _ => false

/-- No member of an object selects the field of this JSON name. -/
def lacksField (name : String) (members : List (String × JSON)) : Prop :=
  ∀ kv ∈ members, keyIs name kv.1 = false

/-- The world with every status code replaced: bodies and errors stay. -/
def World.withStatus (w : World) (f : Nat → Nat) : World :=
  { urlParses := w.urlParses
    roundTrip := fun req =>
      match w.roundTrip req with
      | .error msg => .error msg
      | .ok res => .ok { StatusCode := f res.StatusCode, Body := res.Body } }

/-- All four upstream steps of a scrape succeed: the VM fetch, the VM
decoding, the storage fetch, the storage decoding. -/
def stepsSucceed (e : Exporter) (w : World) : Prop :=
  ∃ vmBody vmResponse storageBody storageResponse,
    fetch w (vmRequest e) = .ok vmBody ∧ unmarshalVMResponse vmBody = .ok vmResponse ∧
      fetch w (storageRequest e) = .ok storageBody ∧
      unmarshalDatastoreResponse storageBody = .ok storageResponse

/-- A parse that succeeds consumes input, and succeeds with the same result
on any fuel that is at least the number of characters it consumed. -/
def FuelFree {β : Type} (p : Nat → List Char → Option (β × List Char)) (f : Nat) : Prop :=
  ∀ cs r, p f cs = some r →
    r.2.length < cs.length ∧ ∀ g, cs.length - r.2.length ≤ g → p g cs = some r

/-- The requests a step hands to the client: its one request, unless the URL
does not parse. -/
def issued (w : World) (req : Request) : List Request :=
  if w.urlParses req.url then [req] else []

/-! ## Worlds for concrete scrapes -/

/-- An exporter as `main` builds one. -/
def demoExporter : Exporter := NewExporter "https://pve:8006" "root@pam!metrics" "s3cr3t"

/-- The VM payload of the specification's scenario. -/
def scenarioVMBody : String :=
  "\x7b\"data\":[\x7b\"vmid\":100,\"name\":\"web1\",\"cpu\":0.42,\"mem\":512,\"maxmem\":1024,\"netin\":10,\"netout\":20,\"status\":\"running\"\x7d]\x7d"

/-- The storage payload of the specification's scenario. -/
def scenarioStorageBody : String :=
  "\x7b\"data\":[\x7b\"storage\":\"local\",\"total\":1000,\"avail\":400,\"used\":600\x7d]\x7d"

/-- The record the scenario's VM payload decodes to. -/
def web1 : VirtualMachine :=
  { VirtualMachine.zero with
    VMID := 100, Name := "web1", CPU := .parsed "0.42", Mem := 512, MaxMem := 1024, NetIn := 10,
    NetOut := 20, Status := "running" }

/-- The record the scenario's storage payload decodes to. -/
def localStore : Datastore :=
  { Datastore.zero with Name := "local", Total := 1000, Available := 400, Used := 600 }

/-- The nine samples the specification lists for its scenario, in the order
it lists them. -/
def scenarioListed : List Metric :=
  [ { desc := cpu, value := .parsed "0.42", labelValues := ["100", "web1"] },
    { desc := netIn, value := .ofInt 10, labelValues := ["100", "web1"] },
    { desc := netOut, value := .ofInt 20, labelValues := ["100", "web1"] },
    { desc := memMax, value := .ofInt 1024, labelValues := ["100", "web1"] },
    { desc := memUsage, value := .ofInt 512, labelValues := ["100", "web1"] },
    { desc := datastoreTotal, value := .ofInt 1000, labelValues := ["local"] },
    { desc := datastoreAvail, value := .ofInt 400, labelValues := ["local"] },
    { desc := datastoreUsed, value := .ofInt 600, labelValues := ["local"] },
    { desc := up, value := .ofInt 1, labelValues := [] } ]

/-- The same nine samples in the order the exporter sends them. -/
def scenarioSent : List Metric :=
  [ { desc := netIn, value := .ofInt 10, labelValues := ["100", "web1"] },
    { desc := netOut, value := .ofInt 20, labelValues := ["100", "web1"] },
    { desc := memMax, value := .ofInt 1024, labelValues := ["100", "web1"] },
    { desc := memUsage, value := .ofInt 512, labelValues := ["100", "web1"] },
    { desc := cpu, value := .parsed "0.42", labelValues := ["100", "web1"] },
    { desc := datastoreTotal, value := .ofInt 1000, labelValues := ["local"] },
    { desc := datastoreAvail, value := .ofInt 400, labelValues := ["local"] },
    { desc := datastoreUsed, value := .ofInt 600, labelValues := ["local"] },
    { desc := up, value := .ofInt 1, labelValues := [] } ]

/-- Both endpoints answer the scenario's payloads. -/
def scenarioWorld : World :=
  serving "https://pve:8006" 200 (.ok scenarioVMBody) (.ok scenarioStorageBody)

/-- The VM endpoint answers the scenario's payload; the storage response
breaks off while its body is read. -/
def storageDownWorld : World :=
  serving "https://pve:8006" 200 (.ok scenarioVMBody) (.error "unexpected EOF")

/-- The VM endpoint answers one record without any member, the storage
endpoint no record. -/
def blankWorld : World :=
  serving "https://pve:8006" 200 (.ok "\x7b\"data\":[\x7b\x7d]\x7d") (.ok "\x7b\"data\":[]\x7d")

/-- The VM endpoint answers text that breaks off. -/
def garbledWorld : World :=
  serving "https://pve:8006" 200 (.ok "\x7b\"data\":[\x7b\"vmid\":100,") (.ok scenarioStorageBody)

/-- Both endpoints answer status 500 with a payload of no records. -/
def status500World : World :=
  serving "https://pve:8006" 500 (.ok "\x7b\"data\":[]\x7d") (.ok "\x7b\"data\":[]\x7d")

/-- The VM endpoint answers one record whose id has the top bit set. -/
def hugeIdWorld : World :=
  serving "https://pve:8006" 200 (.ok "\x7b\"data\":[\x7b\"vmid\":9223372036854775808\x7d]\x7d")
    (.ok "\x7b\"data\":[]\x7d")

/-- No connection can be made. -/
def unreachableWorld : World :=
  { urlParses := fun _ => true, roundTrip := fun _ => .error "connection refused" }

/-! ## The fuel of the scanner is enough -/

theorem skipSpace_length (cs : List Char) : (skipSpace cs).length ≤ cs.length := by
  induction cs with
  | nil => simp [skipSpace]
  | cons c cs ih =>
    simp only [skipSpace]
    split
    · simp only [List.length_cons]
      omega
    · exact Nat.le_refl _

theorem skipSpace_cons_length (cs rest : List Char) (d : Char) (h : skipSpace cs = d :: rest) :
    rest.length < cs.length := by
  have := skipSpace_length cs
  rw [h] at this
  simp only [List.length_cons] at this
  omega

theorem scanUnits_length (cs : List Char) :
    ∀ st us rest, scanUnits st cs = some (us, rest) → rest.length < cs.length := by
  induction cs with
  | nil =>
    intro st us rest h
    cases st <;> simp [scanUnits] at h
  | cons c cs ih =>
    intro st us rest h
    have step : ∀ st' (u : CodeUnit),
        (scanUnits st' cs).map (fun r => (u :: r.1, r.2)) = some (us, rest) →
        rest.length < (c :: cs).length := by
      intro st' u hm
      cases hr : scanUnits st' cs with
      | none => simp [hr] at hm
      | some r =>
        simp only [hr, Option.map_some', Option.some.injEq, Prod.mk.injEq] at hm
        have := ih st' r.1 r.2 (by rw [hr])
        rw [hm.2] at this
        simp only [List.length_cons]
        omega
    have direct : ∀ st', scanUnits st' cs = some (us, rest) →
        rest.length < (c :: cs).length := by
      intro st' hr
      have := ih st' us rest hr
      simp only [List.length_cons]
      omega
    cases st with
    | plain =>
      simp only [scanUnits] at h
      split at h
      · simp only [Option.some.injEq, Prod.mk.injEq] at h
        rw [← h.2]
        simp
      · split at h
        · exact direct _ h
        · split at h
          · simp at h
          · exact step _ _ h
    | esc =>
      simp only [scanUnits] at h
      split at h
      · exact direct _ h
      · split at h
        · simp at h
        · exact step _ _ h
    | hex seen value =>
      simp only [scanUnits] at h
      split at h
      · simp at h
      · split at h
        · exact step _ _ h
        · exact direct _ h

theorem scanString_length (cs : List Char) (s : String) (rest : List Char)
    (h : scanString cs = some (s, rest)) : rest.length < cs.length := by
  unfold scanString at h
  cases hr : scanUnits .plain cs with
  | none => simp [hr] at h
  | some r =>
    simp only [hr, Option.map_some', Option.some.injEq, Prod.mk.injEq] at h
    rw [← h.2]
    exact scanUnits_length cs _ r.1 r.2 (by rw [hr])

theorem spanDigits_length (cs : List Char) : (spanDigits cs).2.length ≤ cs.length := by
  induction cs with
  | nil => simp [spanDigits]
  | cons c cs ih =>
    simp only [spanDigits]
    split
    · simp only [List.length_cons]
      omega
    · exact Nat.le_refl _

theorem scanIntPart_length (cs ip rest : List Char) (h : scanIntPart cs = some (ip, rest)) :
    rest.length < cs.length := by
  cases cs with
  | nil => simp [scanIntPart] at h
  | cons c cs =>
    simp only [scanIntPart] at h
    split at h
    · simp only [Option.some.injEq, Prod.mk.injEq] at h
      rw [← h.2]
      simp
    · split at h
      · simp only [Option.some.injEq, Prod.mk.injEq] at h
        rw [← h.2]
        have := spanDigits_length cs
        simp only [List.length_cons]
        omega
      · simp at h

theorem scanFracPart_length (cs fp rest : List Char) (h : scanFracPart cs = some (fp, rest)) :
    rest.length ≤ cs.length := by
  unfold scanFracPart at h
  split at h
  · rename_i cs1
    have := spanDigits_length cs1
    split at h
    · simp at h
    · rename_i ds r hsp
      simp only [Option.some.injEq, Prod.mk.injEq] at h
      rw [hsp] at this
      rw [← h.2]
      simp only [List.length_cons]
      simp only at this
      omega
  · simp only [Option.some.injEq, Prod.mk.injEq] at h
    rw [h.2]

theorem scanExpDigits_length (pre cs ep rest : List Char)
    (h : scanExpDigits pre cs = some (ep, rest)) : rest.length ≤ cs.length := by
  unfold scanExpDigits at h
  have := spanDigits_length cs
  split at h
  · simp at h
  · rename_i ds r hsp
    simp only [Option.some.injEq, Prod.mk.injEq] at h
    rw [hsp] at this
    rw [← h.2]
    exact this

theorem scanExpPart_length (cs ep rest : List Char) (h : scanExpPart cs = some (ep, rest)) :
    rest.length ≤ cs.length := by
  cases cs with
  | nil =>
    simp only [scanExpPart, Option.some.injEq, Prod.mk.injEq] at h
    rw [← h.2]
  | cons c cs =>
    simp only [scanExpPart] at h
    split at h
    · cases cs with
      | nil => simp at h
      | cons s cs2 =>
        simp only at h
        split at h
        · have := scanExpDigits_length _ _ _ _ h
          simp only [List.length_cons]
          omega
        · have := scanExpDigits_length _ _ _ _ h
          simp only [List.length_cons] at this ⊢
          omega
    · simp only [Option.some.injEq, Prod.mk.injEq] at h
      rw [← h.2]

theorem scanUnsigned_length (cs lit rest : List Char)
    (h : scanUnsigned cs = some (lit, rest)) : rest.length < cs.length := by
  unfold scanUnsigned at h
  cases h1 : scanIntPart cs with
  | none => simp [h1] at h
  | some p1 =>
    obtain ⟨ip, r1⟩ := p1
    simp only [h1] at h
    cases h2 : scanFracPart r1 with
    | none => simp [h2] at h
    | some p2 =>
      obtain ⟨fp, r2⟩ := p2
      simp only [h2] at h
      cases h3 : scanExpPart r2 with
      | none => simp [h3] at h
      | some p3 =>
        obtain ⟨ep, r3⟩ := p3
        simp only [h3, Option.some.injEq, Prod.mk.injEq] at h
        have l1 := scanIntPart_length _ _ _ h1
        have l2 := scanFracPart_length _ _ _ h2
        have l3 := scanExpPart_length _ _ _ h3
        rw [← h.2]
        omega

theorem scanNumber_length (cs lit rest : List Char)
    (h : scanNumber cs = some (lit, rest)) : rest.length < cs.length := by
  cases cs with
  | nil => simp [scanNumber] at h
  | cons c cs =>
    simp only [scanNumber] at h
    split at h
    · cases hu : scanUnsigned cs with
      | none => simp [hu] at h
      | some r =>
        simp only [hu, Option.map_some', Option.some.injEq, Prod.mk.injEq] at h
        have := scanUnsigned_length cs r.1 r.2 (by rw [hu])
        rw [← h.2]
        simp only [List.length_cons]
        omega
    · exact scanUnsigned_length _ _ _ h

theorem stripLiteral_length (l : List Char) :
    ∀ cs rest, stripLiteral l cs = some rest → rest.length ≤ cs.length := by
  induction l with
  | nil =>
    intro cs rest h
    simp only [stripLiteral, Option.some.injEq] at h
    rw [h]
  | cons a l ih =>
    intro cs rest h
    cases cs with
    | nil => simp [stripLiteral] at h
    | cons c cs =>
      simp only [stripLiteral] at h
      split at h
      · have := ih cs rest h
        simp only [List.length_cons]
        omega
      · simp at h

theorem parseValue_fuelFree_succ (f : Nat)
    (hE : ∀ d acc, FuelFree (fun n cs => parseElements n d cs acc) f)
    (hM : ∀ d acc, FuelFree (fun n cs => parseMembers n d cs acc) f) :
    ∀ d, FuelFree (fun n cs => parseValue n d cs) (f + 1) := by
  intro d cs r h
  simp only at h
  cases cs with
  | nil => simp [parseValue] at h
  | cons c rest =>
    rw [parseValue] at h
    have scalar : r.2.length < (c :: rest).length →
        (∀ n, parseValue (n + 1) d (c :: rest) = some r) →
        r.2.length < (c :: rest).length ∧
          ∀ g, (c :: rest).length - r.2.length ≤ g →
            (fun n cs => parseValue n d cs) g (c :: rest) = some r := by
      intro hlen hall
      refine ⟨hlen, fun g hg => ?_⟩
      cases g with
      | zero => omega
      | succ n => exact hall n
    by_cases h1 : (c == '{') = true
    · simp only [h1, if_true] at h
      by_cases h2 : maxNestingDepth ≤ d
      · simp [h2] at h
      · simp only [h2, if_false, Bool.false_eq_true] at h
        cases hsk : skipSpace rest with
        | nil => simp [hsk] at h
        | cons d0 rest1 =>
          simp only [hsk] at h
          have hl := skipSpace_cons_length _ _ _ hsk
          by_cases h3 : (d0 == '}') = true
          · simp only [h3, if_true, Option.some.injEq] at h
            subst h
            refine scalar (by simp only [List.length_cons]; omega) (fun n => ?_)
            rw [parseValue]
            simp only [h1, h2, hsk, h3, if_true, if_false, Bool.false_eq_true]
          · simp only [h3, if_false, Bool.false_eq_true] at h
            obtain ⟨hlt, hfree⟩ := hM (d + 1) [] _ r h
            have hl2 : (d0 :: rest1).length ≤ rest.length := by
              simp only [List.length_cons]
              omega
            refine ⟨by simp only [List.length_cons]; omega, fun g hg => ?_⟩
            cases g with
            | zero =>
              simp only [List.length_cons] at hg
              omega
            | succ n =>
              simp only
              rw [parseValue]
              simp only [h1, h2, hsk, h3, if_true, if_false, Bool.false_eq_true]
              refine hfree n ?_
              simp only [List.length_cons] at hg hl2 hlt ⊢
              omega
    · simp only [h1, if_false, Bool.false_eq_true] at h
      by_cases h4 : (c == '[') = true
      · simp only [h4, if_true] at h
        by_cases h2 : maxNestingDepth ≤ d
        · simp [h2] at h
        · simp only [h2, if_false, Bool.false_eq_true] at h
          cases hsk : skipSpace rest with
          | nil => simp [hsk] at h
          | cons d0 rest1 =>
            simp only [hsk] at h
            have hl := skipSpace_cons_length _ _ _ hsk
            by_cases h3 : (d0 == ']') = true
            · simp only [h3, if_true, Option.some.injEq] at h
              subst h
              refine scalar (by simp only [List.length_cons]; omega) (fun n => ?_)
              rw [parseValue]
              simp only [h1, h4, h2, hsk, h3, if_true, if_false, Bool.false_eq_true]
            · simp only [h3, if_false, Bool.false_eq_true] at h
              obtain ⟨hlt, hfree⟩ := hE (d + 1) [] _ r h
              have hl2 : (d0 :: rest1).length ≤ rest.length := by
                simp only [List.length_cons]
                omega
              refine ⟨by simp only [List.length_cons]; omega, fun g hg => ?_⟩
              cases g with
              | zero =>
                simp only [List.length_cons] at hg
                omega
              | succ n =>
                simp only
                rw [parseValue]
                simp only [h1, h4, h2, hsk, h3, if_true, if_false, Bool.false_eq_true]
                refine hfree n ?_
                simp only [List.length_cons] at hg hl2 hlt ⊢
                omega
      · simp only [h4, if_false, Bool.false_eq_true] at h
        by_cases h5 : (c == '"') = true
        · simp only [h5, if_true] at h
          cases hs : scanString rest with
          | none => simp [hs] at h
          | some p =>
            obtain ⟨str, rest1⟩ := p
            simp only [hs, Option.some.injEq] at h
            subst h
            have := scanString_length _ _ _ hs
            refine scalar (by simp only [List.length_cons]; omega) (fun n => ?_)
            rw [parseValue]
            simp only [h1, h4, h5, hs, if_true, if_false, Bool.false_eq_true]
        · simp only [h5, if_false, Bool.false_eq_true] at h
          by_cases h6 : (c == '-' || isDigit c) = true
          · simp only [h6, if_true] at h
            cases hs : scanNumber (c :: rest) with
            | none => simp [hs] at h
            | some p =>
              obtain ⟨lit, rest1⟩ := p
              simp only [hs, Option.some.injEq] at h
              subst h
              have := scanNumber_length _ _ _ hs
              refine scalar this (fun n => ?_)
              rw [parseValue]
              simp only [h1, h4, h5, h6, hs, if_true, if_false, Bool.false_eq_true]
          · simp only [h6, if_false, Bool.false_eq_true] at h
            by_cases h7 : (c == 't') = true
            · simp only [h7, if_true] at h
              cases hs : stripLiteral ['r', 'u', 'e'] rest with
              | none => simp [hs] at h
              | some rest1 =>
                simp only [hs, Option.some.injEq] at h
                subst h
                have := stripLiteral_length _ _ _ hs
                refine scalar (by simp only [List.length_cons]; omega) (fun n => ?_)
                rw [parseValue]
                simp only [h1, h4, h5, h6, h7, hs, if_true, if_false, Bool.false_eq_true]
            · simp only [h7, if_false, Bool.false_eq_true] at h
              by_cases h8 : (c == 'f') = true
              · simp only [h8, if_true] at h
                cases hs : stripLiteral ['a', 'l', 's', 'e'] rest with
                | none => simp [hs] at h
                | some rest1 =>
                  simp only [hs, Option.some.injEq] at h
                  subst h
                  have := stripLiteral_length _ _ _ hs
                  refine scalar (by simp only [List.length_cons]; omega) (fun n => ?_)
                  rw [parseValue]
                  simp only [h1, h4, h5, h6, h7, h8, hs, if_true, if_false, Bool.false_eq_true]
              · simp only [h8, if_false, Bool.false_eq_true] at h
                by_cases h9 : (c == 'n') = true
                · simp only [h9, if_true] at h
                  cases hs : stripLiteral ['u', 'l', 'l'] rest with
                  | none => simp [hs] at h
                  | some rest1 =>
                    simp only [hs, Option.some.injEq] at h
                    subst h
                    have := stripLiteral_length _ _ _ hs
                    refine scalar (by simp only [List.length_cons]; omega) (fun n => ?_)
                    rw [parseValue]
                    simp only [h1, h4, h5, h6, h7, h8, h9, hs, if_true, if_false, Bool.false_eq_true]
                · simp [h9] at h

theorem parseElements_fuelFree_succ (f : Nat)
    (hV : ∀ d, FuelFree (fun n cs => parseValue n d cs) f)
    (hE : ∀ d acc, FuelFree (fun n cs => parseElements n d cs acc) f) :
    ∀ d acc, FuelFree (fun n cs => parseElements n d cs acc) (f + 1) := by
  intro d acc cs r h
  simp only at h
  rw [parseElements] at h
  cases hv : parseValue f d cs with
  | none => simp [hv] at h
  | some p =>
    obtain ⟨v, rest⟩ := p
    simp only [hv] at h
    obtain ⟨hvlt, hvfree⟩ := hV d cs (v, rest) hv
    simp only at hvlt hvfree
    cases hsk : skipSpace rest with
    | nil => simp [hsk] at h
    | cons d0 rest1 =>
      simp only [hsk] at h
      have hl := skipSpace_cons_length _ _ _ hsk
      by_cases h1 : (d0 == ',') = true
      · simp only [h1, if_true] at h
        obtain ⟨hlt, hfree⟩ := hE d (v :: acc) _ r h
        simp only at hlt hfree
        have hl2 := skipSpace_length rest1
        refine ⟨by omega, fun g hg => ?_⟩
        cases g with
        | zero => omega
        | succ n =>
          simp only
          rw [parseElements]
          rw [hvfree n (by omega)]
          simp only [hsk, h1, if_true]
          exact hfree n (by omega)
      · simp only [h1, if_false, Bool.false_eq_true] at h
        by_cases h2 : (d0 == ']') = true
        · simp only [h2, if_true, Option.some.injEq] at h
          subst h
          refine ⟨by simp only; omega, fun g hg => ?_⟩
          simp only at hg
          cases g with
          | zero => omega
          | succ n =>
            simp only
            rw [parseElements]
            rw [hvfree n (by omega)]
            simp only [hsk, h1, h2, if_true, if_false, Bool.false_eq_true]
        · simp [h2] at h

theorem parseMembers_fuelFree_succ (f : Nat)
    (hV : ∀ d, FuelFree (fun n cs => parseValue n d cs) f)
    (hM : ∀ d acc, FuelFree (fun n cs => parseMembers n d cs acc) f) :
    ∀ d acc, FuelFree (fun n cs => parseMembers n d cs acc) (f + 1) := by
  intro d acc cs r h
  simp only at h
  cases cs with
  | nil => simp [parseMembers] at h
  | cons q rest =>
    rw [parseMembers] at h
    by_cases h0 : (q == '"') = true
    · simp only [h0, if_true] at h
      cases hs : scanString rest with
      | none => simp [hs] at h
      | some p0 =>
        obtain ⟨key, rest1⟩ := p0
        simp only [hs] at h
        have hsl := scanString_length _ _ _ hs
        cases hsk1 : skipSpace rest1 with
        | nil => simp [hsk1] at h
        | cons colon rest2 =>
          simp only [hsk1] at h
          have hl1 := skipSpace_cons_length _ _ _ hsk1
          by_cases hc : (colon == ':') = true
          · simp only [hc, if_true] at h
            have hl2 := skipSpace_length rest2
            cases hv : parseValue f d (skipSpace rest2) with
            | none => simp [hv] at h
            | some p =>
              obtain ⟨v, rest3⟩ := p
              simp only [hv] at h
              obtain ⟨hvlt, hvfree⟩ := hV d _ (v, rest3) hv
              simp only at hvlt hvfree
              cases hsk : skipSpace rest3 with
              | nil => simp [hsk] at h
              | cons d0 rest4 =>
                simp only [hsk] at h
                have hl := skipSpace_cons_length _ _ _ hsk
                by_cases h1 : (d0 == ',') = true
                · simp only [h1, if_true] at h
                  obtain ⟨hlt, hfree⟩ := hM d ((key, v) :: acc) _ r h
                  simp only at hlt hfree
                  have hl3 := skipSpace_length rest4
                  refine ⟨by simp only [List.length_cons]; omega, fun g hg => ?_⟩
                  simp only [List.length_cons] at hg
                  cases g with
                  | zero => omega
                  | succ n =>
                    simp only
                    rw [parseMembers]
                    simp only [h0, if_true, hs, hsk1, hc]
                    rw [hvfree n (by omega)]
                    simp only [hsk, h1, if_true]
                    exact hfree n (by omega)
                · simp only [h1, if_false, Bool.false_eq_true] at h
                  by_cases h2 : (d0 == '}') = true
                  · simp only [h2, if_true, Option.some.injEq] at h
                    subst h
                    refine ⟨by simp only [List.length_cons]; omega, fun g hg => ?_⟩
                    simp only [List.length_cons] at hg
                    cases g with
                    | zero => omega
                    | succ n =>
                      simp only
                      rw [parseMembers]
                      simp only [h0, if_true, hs, hsk1, hc]
                      rw [hvfree n (by omega)]
                      simp only [hsk, h1, h2, if_true, if_false, Bool.false_eq_true]
                  · simp [h2] at h
          · simp [hc] at h
    · simp [h0] at h

theorem parse_fuelFree (f : Nat) :
    (∀ d, FuelFree (fun n cs => parseValue n d cs) f) ∧
      (∀ d acc, FuelFree (fun n cs => parseElements n d cs acc) f) ∧
      (∀ d acc, FuelFree (fun n cs => parseMembers n d cs acc) f) := by
  induction f with
  | zero =>
    refine ⟨?_, ?_, ?_⟩
    · intro d cs r h
      simp [parseValue] at h
    · intro d acc cs r h
      simp [parseElements] at h
    · intro d acc cs r h
      simp [parseMembers] at h
  | succ f ih =>
    exact ⟨parseValue_fuelFree_succ f ih.2.1 ih.2.2,
      parseElements_fuelFree_succ f ih.1 ih.2.1,
      parseMembers_fuelFree_succ f ih.1 ih.2.2⟩

/-- The fuel `parseJSON` gives the scanner is enough: a text the scanner
accepts on any fuel at all is accepted by `parseJSON`, with the same value. -/
theorem parseJSON_fuel_enough (body : String) (f : Nat) (v : JSON) (rest : List Char)
    (h : parseValue f 0 (skipSpace body.data) = some (v, rest)) (hrest : skipSpace rest = []) :
    parseJSON body = some v := by
  have hfree := ((parse_fuelFree f).1 0 _ (v, rest) h).2 (body.data.length + 1) (by
    have := skipSpace_length body.data
    omega)
  simp only at hfree
  unfold parseJSON
  rw [hfree]
  simp only [hrest]

/-! ## The scrape in terms of its two steps -/

theorem foldl_sendVM (vms : List VirtualMachine) (s : Scrape) :
    vms.foldl sendVM s = { s with ch := s.ch ++ vms.flatMap vmSamples } := by
  induction vms generalizing s with
  | nil => simp
  | cons vm vms ih =>
    rw [List.foldl_cons, ih]
    simp [sendVM, Scrape.send, MustNewConstMetric, vmSamples, List.flatMap_cons]

theorem foldl_sendDatastore (dss : List Datastore) (s : Scrape) :
    dss.foldl sendDatastore s = { s with ch := s.ch ++ dss.flatMap datastoreSamples } := by
  induction dss generalizing s with
  | nil => simp
  | cons d dss ih =>
    rw [List.foldl_cons, ih]
    simp [sendDatastore, Scrape.send, MustNewConstMetric, datastoreSamples, List.flatMap_cons]

/-- The method `collectVMmetrics` in terms of the VM step. -/
theorem collectVMmetrics_eq (e : Exporter) (w : World) (s : Scrape) :
    collectVMmetrics e w s =
      match vmStep e w with
      | .error err => (some err, { s with calls := s.calls ++ issued w (vmRequest e) })
      | .ok vms =>
        (none, { s with ch := s.ch ++ vms.flatMap vmSamples,
                        calls := s.calls ++ [vmRequest e] }) := by
  unfold collectVMmetrics vmStep fetch NewRequest clientDo issued
  dsimp only [vmRequest, Request.addHeader, List.nil_append]
  by_cases hu : w.urlParses (e.endpoint ++ "/nodes/localhost/qemu/") = true
  · simp only [hu, if_true]
    dsimp only [List.nil_append]
    cases hr : w.roundTrip ⟨"GET", e.endpoint ++ "/nodes/localhost/qemu/",
        [("Authorization", e.authorizationHeader)]⟩ with
    | error msg => rfl
    | ok res =>
      simp only []
      cases hb : ReadAll res with
      | error err2 => rfl
      | ok body =>
        simp only []
        cases hd : unmarshalVMResponse body with
        | error err3 => rfl
        | ok r => simp [foldl_sendVM]
  · simp [hu]

/-- The method `collectStorageMetrics` in terms of the storage step. -/
theorem collectStorageMetrics_eq (e : Exporter) (w : World) (s : Scrape) :
    collectStorageMetrics e w s =
      match storageStep e w with
      | .error err => (some err, { s with calls := s.calls ++ issued w (storageRequest e) })
      | .ok dss =>
        (none, { s with ch := s.ch ++ dss.flatMap datastoreSamples,
                        calls := s.calls ++ [storageRequest e] }) := by
  unfold collectStorageMetrics storageStep fetch NewRequest clientDo issued
  dsimp only [storageRequest, Request.addHeader, List.nil_append]
  by_cases hu : w.urlParses (e.endpoint ++ "/nodes/localhost/storage/") = true
  · simp only [hu, if_true]
    dsimp only [List.nil_append]
    cases hr : w.roundTrip ⟨"GET", e.endpoint ++ "/nodes/localhost/storage/",
        [("Authorization", e.authorizationHeader)]⟩ with
    | error msg => rfl
    | ok res =>
      simp only []
      cases hb : ReadAll res with
      | error err2 => rfl
      | ok body =>
        simp only []
        cases hd : unmarshalDatastoreResponse body with
        | error err3 => rfl
        | ok r => simp [foldl_sendDatastore]
  · simp [hu]

/-- A scrape whose VM step fails. -/
theorem scrape_vm_error (e : Exporter) (w : World) (err : Error)
    (h : vmStep e w = .error err) :
    scrape e w = { ch := [upSample 0], calls := issued w (vmRequest e), logged := [err] } := by
  simp [scrape, Collect, collectFromAPI, collectVMmetrics_eq, h, Scrape.send,
    Scrape.empty, MustNewConstMetric, upSample]

/-- A scrape whose VM step succeeds and whose storage step fails. -/
theorem scrape_storage_error (e : Exporter) (w : World) (vms : List VirtualMachine)
    (err : Error) (hv : vmStep e w = .ok vms) (hs : storageStep e w = .error err) :
    scrape e w =
      { ch := vms.flatMap vmSamples ++ [upSample 0],
        calls := vmRequest e :: issued w (storageRequest e), logged := [err] } := by
  simp [scrape, Collect, collectFromAPI, collectVMmetrics_eq, hv,
    collectStorageMetrics_eq, hs, Scrape.send, Scrape.empty, MustNewConstMetric,
    upSample]

/-- A scrape whose two steps succeed. -/
theorem scrape_ok (e : Exporter) (w : World) (vms : List VirtualMachine) (dss : List Datastore)
    (hv : vmStep e w = .ok vms) (hs : storageStep e w = .ok dss) :
    scrape e w =
      { ch := vms.flatMap vmSamples ++ dss.flatMap datastoreSamples ++ [upSample 1],
        calls := [vmRequest e, storageRequest e], logged := [] } := by
  simp [scrape, Collect, collectFromAPI, collectVMmetrics_eq, hv,
    collectStorageMetrics_eq, hs, Scrape.send, Scrape.empty, MustNewConstMetric,
    upSample]

theorem vmRequest_ne_storageRequest (e : Exporter) : vmRequest e ≠ storageRequest e := by
  intro h
  have hu : e.endpoint ++ "/nodes/localhost/qemu/" = e.endpoint ++ "/nodes/localhost/storage/" :=
    congrArg Request.url h
  have hd := congrArg String.data hu
  rw [String.data_append, String.data_append] at hd
  exact absurd (List.append_cancel_left hd) (by decide)

theorem issued_subset (w : World) (req r : Request) (h : r ∈ issued w req) : r = req := by
  unfold issued at h
  split at h <;> simp_all

theorem countP_vmSamples (vm : VirtualMachine) :
    (vmSamples vm).countP isVMMetric = 5 ∧ (vmSamples vm).countP isDatastoreMetric = 0 ∧
      (vmSamples vm).countP isUpMetric = 0 :=
  ⟨rfl, rfl, rfl⟩

theorem countP_datastoreSamples (d : Datastore) :
    (datastoreSamples d).countP isVMMetric = 0 ∧
      (datastoreSamples d).countP isDatastoreMetric = 3 ∧
      (datastoreSamples d).countP isUpMetric = 0 :=
  ⟨rfl, rfl, rfl⟩

theorem countP_upSample (v : Int) :
    [upSample v].countP isVMMetric = 0 ∧ [upSample v].countP isDatastoreMetric = 0 ∧
      [upSample v].countP isUpMetric = 1 :=
  ⟨rfl, rfl, rfl⟩

theorem countP_flatMap_const {α : Type} (p : Metric → Bool) (f : α → List Metric) (k : Nat)
    (h : ∀ a, (f a).countP p = k) (l : List α) : (l.flatMap f).countP p = k * l.length := by
  induction l with
  | nil => simp
  | cons a l ih => simp [List.flatMap_cons, List.countP_append, h, ih, Nat.mul_succ, Nat.add_comm]

theorem length_flatMap_vmSamples (vms : List VirtualMachine) :
    (vms.flatMap vmSamples).length = 5 * vms.length := by
  induction vms with
  | nil => simp
  | cons a l ih =>
    simp only [List.flatMap_cons, List.length_append, ih, vmSamples, List.length_cons,
      List.length_nil]
    omega

/-! ## The claims -/

/-- C10: when the VM step succeeds with n records and the storage step fails,
the samples sent are the 5n VM samples, in record order, and then one `up`
of value 0: 5n + 1 samples, none of them a datastore sample. The VM samples
are on the channel when `collectVMmetrics` returns, and the storage request
has not been issued by then. -/
theorem partial_scrape_stream (e : Exporter) (w : World) (vms : List VirtualMachine)
    (err : Error) (hv : vmStep e w = .ok vms) (hs : storageStep e w = .error err) :
    (scrape e w).ch = vms.flatMap vmSamples ++ [upSample 0] ∧
      (scrape e w).ch.length = 5 * vms.length + 1 ∧
      (scrape e w).ch.countP isDatastoreMetric = 0 ∧
      (collectVMmetrics e w Scrape.empty).2.ch = vms.flatMap vmSamples ∧
      storageRequest e ∉ (collectVMmetrics e w Scrape.empty).2.calls := by
  rw [scrape_storage_error e w vms err hv hs, collectVMmetrics_eq, hv]
  refine ⟨rfl, ?_, ?_, ?_, ?_⟩
  · simp only [List.length_append, length_flatMap_vmSamples, List.length_singleton]
  · simp only [List.countP_append, (countP_upSample 0).2.1, Nat.zero_mul,
      countP_flatMap_const isDatastoreMetric vmSamples 0 (fun vm => (countP_vmSamples vm).2.1)]
  · simp [Scrape.empty]
  · simp only [Scrape.empty, List.nil_append, List.mem_singleton]
    exact fun h => vmRequest_ne_storageRequest e h.symm

set_option exponentiation.threshold 2000 in
set_option maxRecDepth 100000 in
/-- C10 at a scrape: the VM endpoint answers the scenario's record, the
storage response breaks off while it is read. -/
theorem partial_scrape_stream_witness :
    vmStep demoExporter storageDownWorld = .ok [web1] ∧
      storageStep demoExporter storageDownWorld = .error (.read "unexpected EOF") ∧
      (scrape demoExporter storageDownWorld).ch = vmSamples web1 ++ [upSample 0] :=
  ⟨by decide, by decide,
    (partial_scrape_stream demoExporter storageDownWorld [web1] (.read "unexpected EOF")
      (by decide) (by decide)).1⟩

/-- C1, as amended: in a scrape with a failed step `up` is sent exactly once,
with value 0 and as the last sample, and no datastore sample is sent. It is
the only sample when the VM step failed; when the VM step gave n records and
the storage step failed, the 5n VM samples, already sent, come before it. -/
theorem failed_scrape_samples (e : Exporter) (w : World)
    (hfail : (∃ err, vmStep e w = .error err) ∨ (∃ err, storageStep e w = .error err)) :
    ((∃ err, vmStep e w = .error err) → (scrape e w).ch = [upSample 0]) ∧
      (∀ vms, vmStep e w = .ok vms →
        (scrape e w).ch = vms.flatMap vmSamples ++ [upSample 0] ∧
          (scrape e w).ch.length = 5 * vms.length + 1) ∧
      (scrape e w).ch.getLast? = some (upSample 0) ∧
      (scrape e w).ch.countP isUpMetric = 1 ∧
      (scrape e w).ch.countP isDatastoreMetric = 0 := by
  cases hv : vmStep e w with
  | error err =>
    rw [scrape_vm_error e w err hv]
    exact ⟨fun _ => rfl, fun vms h => by simp at h, rfl, rfl, rfl⟩
  | ok vms =>
    rcases hfail with ⟨err, h⟩ | ⟨err, hs⟩
    · rw [hv] at h
      simp at h
    · rw [scrape_storage_error e w vms err hv hs]
      refine ⟨fun ⟨err', h⟩ => by simp at h, ?_, ?_, ?_, ?_⟩
      · intro vms' h
        simp only [Except.ok.injEq] at h
        subst h
        exact ⟨rfl, by
          simp only [List.length_append, length_flatMap_vmSamples, List.length_singleton]⟩
      · simp
      · simp only [List.countP_append, (countP_upSample 0).2.2, Nat.zero_mul,
          countP_flatMap_const isUpMetric vmSamples 0 (fun vm => (countP_vmSamples vm).2.2)]
      · simp only [List.countP_append, (countP_upSample 0).2.1, Nat.zero_mul,
          countP_flatMap_const isDatastoreMetric vmSamples 0
            (fun vm => (countP_vmSamples vm).2.1)]

set_option exponentiation.threshold 2000 in
set_option maxRecDepth 100000 in
/-- The amended C1 at two scrapes: no connection at all, and a storage
response that breaks off after the VM endpoint answered one record. -/
theorem failed_scrape_samples_witness :
    (scrape demoExporter unreachableWorld).ch = [upSample 0] ∧
      (scrape demoExporter storageDownWorld).ch = vmSamples web1 ++ [upSample 0] ∧
      (scrape demoExporter storageDownWorld).ch.length = 5 * 1 + 1 :=
  ⟨(failed_scrape_samples demoExporter unreachableWorld
      (Or.inl ⟨.transport "connection refused", by decide⟩)).1
      ⟨.transport "connection refused", by decide⟩,
    ((failed_scrape_samples demoExporter storageDownWorld
      (Or.inr ⟨.read "unexpected EOF", by decide⟩)).2.1 [web1] (by decide)).1,
    ((failed_scrape_samples demoExporter storageDownWorld
      (Or.inr ⟨.read "unexpected EOF", by decide⟩)).2.1 [web1] (by decide)).2⟩

set_option exponentiation.threshold 2000 in
set_option maxRecDepth 100000 in
/-- C1 as stated fails: the VM endpoint answers one record, the storage
response cannot be read, and the scrape sends six samples, the five of the
record before `up` 0. -/
theorem failed_scrape_not_single_sample :
    vmStep demoExporter storageDownWorld = .ok [web1] ∧
      storageStep demoExporter storageDownWorld = .error (.read "unexpected EOF") ∧
      (scrape demoExporter storageDownWorld).ch.length = 6 ∧
      (scrape demoExporter storageDownWorld).ch.countP isVMMetric = 5 ∧
      (scrape demoExporter storageDownWorld).ch ≠ [upSample 0] := by
  decide

/-- C2: in a scrape whose two steps succeed with n VM records and m datastore
records, 5n samples are VM samples, 3m are datastore samples, and the `up`
samples are one sample of value 1. Nothing is held back for a record's
content: each record's five (three) samples are all on the channel, and a
VM record with an empty name has its five with the label vm_name empty. -/
theorem successful_scrape_counts (e : Exporter) (w : World) (vms : List VirtualMachine)
    (dss : List Datastore) (hv : vmStep e w = .ok vms) (hs : storageStep e w = .ok dss) :
    (scrape e w).ch.countP isVMMetric = 5 * vms.length ∧
      (scrape e w).ch.countP isDatastoreMetric = 3 * dss.length ∧
      (scrape e w).ch.filter isUpMetric = [upSample 1] ∧
      (∀ vm ∈ vms, ∀ m ∈ vmSamples vm, m ∈ (scrape e w).ch) ∧
      (∀ d ∈ dss, ∀ m ∈ datastoreSamples d, m ∈ (scrape e w).ch) ∧
      (∀ vm ∈ vms, vm.Name = "" → ∀ d ∈ [netIn, netOut, memMax, memUsage, cpu],
        ∃ m ∈ (scrape e w).ch, m.desc = d ∧ m.labelValues = [Itoa (toInt vm.VMID), ""]) := by
  rw [scrape_ok e w vms dss hv hs]
  have hmemV : ∀ vm ∈ vms, ∀ m ∈ vmSamples vm,
      m ∈ vms.flatMap vmSamples ++ dss.flatMap datastoreSamples ++ [upSample 1] := by
    intro vm hvm m hm
    exact List.mem_append_left _ (List.mem_append_left _ (List.mem_flatMap.mpr ⟨vm, hvm, hm⟩))
  refine ⟨?_, ?_, ?_, hmemV, ?_, ?_⟩
  · simp only [List.countP_append, (countP_upSample 1).1,
      countP_flatMap_const isVMMetric vmSamples 5 (fun vm => (countP_vmSamples vm).1),
      countP_flatMap_const isVMMetric datastoreSamples 0
        (fun d => (countP_datastoreSamples d).1)]
    omega
  · simp only [List.countP_append, (countP_upSample 1).2.1,
      countP_flatMap_const isDatastoreMetric vmSamples 0 (fun vm => (countP_vmSamples vm).2.1),
      countP_flatMap_const isDatastoreMetric datastoreSamples 3
        (fun d => (countP_datastoreSamples d).2.1)]
    omega
  · have h1 : (vms.flatMap vmSamples).filter isUpMetric = [] := by
      rw [List.filter_eq_nil_iff, ← List.countP_eq_zero,
        countP_flatMap_const isUpMetric vmSamples 0 (fun vm => (countP_vmSamples vm).2.2)]
      omega
    have h2 : (dss.flatMap datastoreSamples).filter isUpMetric = [] := by
      rw [List.filter_eq_nil_iff, ← List.countP_eq_zero,
        countP_flatMap_const isUpMetric datastoreSamples 0
          (fun d => (countP_datastoreSamples d).2.2)]
      omega
    rw [List.filter_append, List.filter_append, h1, h2]
    rfl
  · intro d hd m hm
    exact List.mem_append_left _ (List.mem_append_right _ (List.mem_flatMap.mpr ⟨d, hd, hm⟩))
  · intro vm hvm hname d hd
    simp only [List.mem_cons, List.mem_singleton, List.not_mem_nil, or_false] at hd
    rcases hd with rfl | rfl | rfl | rfl | rfl
    · exact ⟨⟨netIn, .ofInt vm.NetIn, [Itoa (toInt vm.VMID), vm.Name]⟩,
        hmemV vm hvm _ (by simp [vmSamples]), rfl, by rw [hname]⟩
    · exact ⟨⟨netOut, .ofInt vm.NetOut, [Itoa (toInt vm.VMID), vm.Name]⟩,
        hmemV vm hvm _ (by simp [vmSamples]), rfl, by rw [hname]⟩
    · exact ⟨⟨memMax, .ofInt vm.MaxMem, [Itoa (toInt vm.VMID), vm.Name]⟩,
        hmemV vm hvm _ (by simp [vmSamples]), rfl, by rw [hname]⟩
    · exact ⟨⟨memUsage, .ofInt vm.Mem, [Itoa (toInt vm.VMID), vm.Name]⟩,
        hmemV vm hvm _ (by simp [vmSamples]), rfl, by rw [hname]⟩
    · exact ⟨⟨cpu, vm.CPU, [Itoa (toInt vm.VMID), vm.Name]⟩,
        hmemV vm hvm _ (by simp [vmSamples]), rfl, by rw [hname]⟩

set_option maxRecDepth 100000 in
/-- C2 at a scrape whose one VM record has no name and only zero values. -/
theorem successful_scrape_counts_witness :
    vmStep demoExporter blankWorld = .ok [VirtualMachine.zero] ∧
      storageStep demoExporter blankWorld = .ok [] ∧
      (scrape demoExporter blankWorld).ch.countP isVMMetric = 5 * 1 ∧
      ∀ d ∈ [netIn, netOut, memMax, memUsage, cpu],
        ∃ m ∈ (scrape demoExporter blankWorld).ch, m.desc = d ∧ m.labelValues = ["0", ""] :=
  ⟨by decide, by decide,
    (successful_scrape_counts demoExporter blankWorld [VirtualMachine.zero] []
      (by decide) (by decide)).1,
    (successful_scrape_counts demoExporter blankWorld [VirtualMachine.zero] []
      (by decide) (by decide)).2.2.2.2.2 VirtualMachine.zero (List.mem_singleton.mpr rfl) rfl⟩

theorem vmStep_ok_iff (e : Exporter) (w : World) :
    (∃ vms, vmStep e w = .ok vms) ↔
      ∃ body r, fetch w (vmRequest e) = .ok body ∧ unmarshalVMResponse body = .ok r := by
  unfold vmStep
  cases hf : fetch w (vmRequest e) with
  | error err => simp
  | ok body =>
    cases hd : unmarshalVMResponse body with
    | error err => simp [hd]
    | ok r => simp [hd]

theorem storageStep_ok_iff (e : Exporter) (w : World) :
    (∃ dss, storageStep e w = .ok dss) ↔
      ∃ body r, fetch w (storageRequest e) = .ok body ∧
        unmarshalDatastoreResponse body = .ok r := by
  unfold storageStep
  cases hf : fetch w (storageRequest e) with
  | error err => simp
  | ok body =>
    cases hd : unmarshalDatastoreResponse body with
    | error err => simp [hd]
    | ok r => simp [hd]

theorem stepsSucceed_iff (e : Exporter) (w : World) :
    stepsSucceed e w ↔ (∃ vms, vmStep e w = .ok vms) ∧ (∃ dss, storageStep e w = .ok dss) := by
  rw [vmStep_ok_iff, storageStep_ok_iff]
  constructor
  · rintro ⟨a, b, c, d, h1, h2, h3, h4⟩
    exact ⟨⟨a, b, h1, h2⟩, ⟨c, d, h3, h4⟩⟩
  · rintro ⟨⟨a, b, h1, h2⟩, ⟨c, d, h3, h4⟩⟩
    exact ⟨a, b, c, d, h1, h2, h3, h4⟩

/-- C3: every scrape sends the `up` sample exactly once, as its last sample,
however many records it processed; its value is 1 if the VM fetch, the VM
decoding, the storage fetch and the storage decoding all succeeded, and 0 if
one of them failed. -/
theorem up_sample_once_and_last (e : Exporter) (w : World) :
    ∃ (pre : List Metric) (v : Int),
      (scrape e w).ch = pre ++ [upSample v] ∧ pre.countP isUpMetric = 0 ∧
        (scrape e w).ch.countP isUpMetric = 1 ∧
        (v = 1 ↔ stepsSucceed e w) ∧ (v = 0 ↔ ¬ stepsSucceed e w) := by
  rw [stepsSucceed_iff]
  cases hv : vmStep e w with
  | error err =>
    refine ⟨[], 0, ?_, rfl, ?_, ?_, ?_⟩
    · rw [scrape_vm_error e w err hv]
      rfl
    · rw [scrape_vm_error e w err hv]
      rfl
    · simp
    · simp
  | ok vms =>
    have hvm0 : (vms.flatMap vmSamples).countP isUpMetric = 0 := by
      rw [countP_flatMap_const isUpMetric vmSamples 0 (fun vm => (countP_vmSamples vm).2.2)]
      omega
    cases hs : storageStep e w with
    | error err =>
      refine ⟨vms.flatMap vmSamples, 0, ?_, hvm0, ?_, ?_, ?_⟩
      · rw [scrape_storage_error e w vms err hv hs]
      · rw [scrape_storage_error e w vms err hv hs]
        simp only [List.countP_append, hvm0, (countP_upSample 0).2.2]
      · simp
      · simp
    | ok dss =>
      have hds0 : (dss.flatMap datastoreSamples).countP isUpMetric = 0 := by
        rw [countP_flatMap_const isUpMetric datastoreSamples 0
          (fun d => (countP_datastoreSamples d).2.2)]
        omega
      refine ⟨vms.flatMap vmSamples ++ dss.flatMap datastoreSamples, 1, ?_, ?_, ?_, ?_, ?_⟩
      · rw [scrape_ok e w vms dss hv hs]
      · simp only [List.countP_append, hvm0, hds0]
      · rw [scrape_ok e w vms dss hv hs]
        simp only [List.countP_append, hvm0, hds0, (countP_upSample 1).2.2]
      · simp
      · simp

/-- C4: when the VM step fails (the call returns a transport error, the body
is not valid JSON, or any other failure of the step), the only sample sent
is `up` with value 0 and the storage request is never handed to the client:
the client saw at most the VM request. -/
theorem vm_failure_short_circuits (e : Exporter) (w : World)
    (h : (w.urlParses (vmRequest e).url = true ∧ ∃ msg, w.roundTrip (vmRequest e) = .error msg) ∨
      (∃ body, fetch w (vmRequest e) = .ok body ∧ parseJSON body = none) ∨
      (∃ err, vmStep e w = .error err)) :
    (scrape e w).ch = [upSample 0] ∧ storageRequest e ∉ (scrape e w).calls ∧
      ∀ req ∈ (scrape e w).calls, req = vmRequest e := by
  have hfail : ∃ err, vmStep e w = .error err := by
    rcases h with ⟨hu, msg, hr⟩ | ⟨body, hf, hp⟩ | h
    · exact ⟨.transport msg, by simp [vmStep, fetch, hu, hr]⟩
    · exact ⟨.malformed, by simp [vmStep, hf, unmarshalVMResponse, hp]⟩
    · exact h
  obtain ⟨err, hv⟩ := hfail
  rw [scrape_vm_error e w err hv]
  refine ⟨rfl, ?_, ?_⟩
  · intro hmem
    exact vmRequest_ne_storageRequest e (issued_subset w _ _ hmem).symm
  · intro req hreq
    exact issued_subset w _ _ hreq

set_option maxRecDepth 100000 in
/-- C4 at a scrape whose VM endpoint answers text that is not valid JSON. -/
theorem vm_failure_short_circuits_witness :
    fetch garbledWorld (vmRequest demoExporter) = .ok "\x7b\"data\":[\x7b\"vmid\":100," ∧
      (scrape demoExporter garbledWorld).ch = [upSample 0] ∧
      (scrape demoExporter garbledWorld).calls = [vmRequest demoExporter] :=
  ⟨by decide,
    (vm_failure_short_circuits demoExporter garbledWorld
      (Or.inr (Or.inl ⟨"\x7b\"data\":[\x7b\"vmid\":100,", by decide, by rfl⟩))).1,
    by decide⟩

theorem fetch_withStatus (w : World) (f : Nat → Nat) (req : Request) :
    fetch (w.withStatus f) req = fetch w req := by
  unfold fetch World.withStatus
  dsimp only
  cases w.roundTrip req <;> rfl

theorem issued_withStatus (w : World) (f : Nat → Nat) (req : Request) :
    issued (w.withStatus f) req = issued w req := rfl

/-- C5, as amended: the status code of a response is not looked at. With
every status code replaced by any other, 2xx or not, a scrape sends the same
samples, issues the same requests and logs the same error; a call fails only
when the client returns an error, and a body that was read is decoded
whatever the status was. -/
theorem status_not_inspected (e : Exporter) (w : World) (f : Nat → Nat) :
    scrape e (w.withStatus f) = scrape e w ∧
      vmStep e (w.withStatus f) = vmStep e w ∧
      storageStep e (w.withStatus f) = storageStep e w := by
  have hv : vmStep e (w.withStatus f) = vmStep e w := by
    unfold vmStep
    rw [fetch_withStatus]
  have hs : storageStep e (w.withStatus f) = storageStep e w := by
    unfold storageStep
    rw [fetch_withStatus]
  refine ⟨?_, hv, hs⟩
  cases h1 : vmStep e w with
  | error err =>
    rw [scrape_vm_error e w err h1, scrape_vm_error e _ err (hv.trans h1), issued_withStatus]
  | ok vms =>
    cases h2 : storageStep e w with
    | error err =>
      rw [scrape_storage_error e w vms err h1 h2,
        scrape_storage_error e _ vms err (hv.trans h1) (hs.trans h2), issued_withStatus]
    | ok dss =>
      rw [scrape_ok e w vms dss h1 h2, scrape_ok e _ vms dss (hv.trans h1) (hs.trans h2)]

set_option maxRecDepth 100000 in
/-- C5 as stated fails: both endpoints answer status 500 with a payload that
decodes, and the scrape reports `up` 1. -/
theorem non_2xx_scrape_reports_up :
    (status500World.roundTrip (vmRequest demoExporter)).toOption.map Response.StatusCode
        = some 500 ∧
      (status500World.roundTrip (storageRequest demoExporter)).toOption.map Response.StatusCode
        = some 500 ∧
      vmStep demoExporter status500World = .ok [] ∧
      storageStep demoExporter status500World = .ok [] ∧
      (scrape demoExporter status500World).ch = [upSample 1] := by
  decide

/-- Below `2^63` the label is the decimal numeral of the id. -/
theorem vmIdLabel_of_lt (id : Nat) (h : id < 2 ^ 63) : Itoa (toInt id) = Nat.repr id := by
  have h1 : id % 2 ^ 64 = id := Nat.mod_eq_of_lt (by omega)
  have h2 : ¬ ((id : Int) < 0) := by omega
  simp only [toInt, Itoa, h1, h, if_true, h2, if_false, Int.natAbs_ofNat]

/-- From `2^63` on the label is a negative numeral. -/
theorem vmIdLabel_of_ge (id : Nat) (h : 2 ^ 63 ≤ id) (h' : id < 2 ^ 64) :
    Itoa (toInt id) = "-" ++ Nat.repr (2 ^ 64 - id) := by
  have h1 : id % 2 ^ 64 = id := Nat.mod_eq_of_lt h'
  have h2 : ¬ (id < 2 ^ 63) := by omega
  have h3 : ((id : Int) - 2 ^ 64 < 0) := by omega
  have h4 : ((id : Int) - 2 ^ 64).natAbs = 2 ^ 64 - id := by omega
  simp only [toInt, Itoa, h1, h2, if_false, h3, if_true, h4]

set_option maxRecDepth 100000 in
/-- C7: the label is `strconv.Itoa(int(vm.VMID))`. An id of 0 gives "0", but
an id from `2^63` on, which the `uint64` field holds and the decoder
accepts, becomes negative in the conversion to `int`: the id
9223372036854775808 is labelled "-9223372036854775808" on its five
samples. -/
theorem vm_id_label_wraps :
    vmStep demoExporter hugeIdWorld
        = .ok [{ VirtualMachine.zero with VMID := 9223372036854775808 }] ∧
      (scrape demoExporter hugeIdWorld).ch.map Metric.labelValues
        = [["-9223372036854775808", ""], ["-9223372036854775808", ""],
           ["-9223372036854775808", ""], ["-9223372036854775808", ""],
           ["-9223372036854775808", ""], []] ∧
      Itoa (toInt 0) = "0" ∧ Itoa (toInt 100) = "100" ∧
      Itoa (toInt 9223372036854775807) = "9223372036854775807" := by
  decide

set_option exponentiation.threshold 2000 in
set_option maxRecDepth 100000 in
theorem scenario_unmarshal :
    unmarshalVMResponse scenarioVMBody = .ok { Data := { elems := [web1], spare := [] } } ∧
      unmarshalDatastoreResponse scenarioStorageBody
        = .ok { Data := { elems := [localStore], spare := [] } } := by
  decide

theorem scenario_samples :
    vmSamples web1 ++ datastoreSamples localStore ++ [upSample 1] = scenarioSent ∧
      scenarioSent.Perm scenarioListed := by
  decide

/-- C8: in a scrape whose two steps succeed, the samples sent are, for each
VM record in payload order, net_in, net_out, mem_max, mem_usage and
cpu_usage with the values of netin, netout, maxmem, mem and cpu and the
labels vm_id (the id label of the record) and vm_name; then, for each
datastore record in payload order, datastore_total, datastore_avail and
datastore_used with the values of total, avail and used, whatever their
sign, and the label storage; then `up` 1. For the scenario's payloads these
are the nine samples the specification lists. -/
theorem successful_scrape_sequence (e : Exporter) (w : World) (vms : List VirtualMachine)
    (dss : List Datastore) (hv : vmStep e w = .ok vms) (hs : storageStep e w = .ok dss) :
    (scrape e w).ch = vms.flatMap vmSamples ++ dss.flatMap datastoreSamples ++ [upSample 1] ∧
      (fetch w (vmRequest e) = .ok scenarioVMBody →
        fetch w (storageRequest e) = .ok scenarioStorageBody →
        (scrape e w).ch = scenarioSent ∧ (scrape e w).ch.Perm scenarioListed) := by
  refine ⟨by rw [scrape_ok e w vms dss hv hs], ?_⟩
  intro hfv hfs
  have h1 : vmStep e w = .ok [web1] := by
    simp [vmStep, hfv, scenario_unmarshal.1]
  have h2 : storageStep e w = .ok [localStore] := by
    simp [storageStep, hfs, scenario_unmarshal.2]
  rw [scrape_ok e w [web1] [localStore] h1 h2]
  simp only [List.flatMap_cons, List.flatMap_nil, List.append_nil]
  rw [scenario_samples.1]
  exact ⟨rfl, scenario_samples.2⟩

set_option exponentiation.threshold 2000 in
set_option maxRecDepth 100000 in
/-- C8 at the scenario of the specification. -/
theorem successful_scrape_sequence_witness :
    vmStep demoExporter scenarioWorld = .ok [web1] ∧
      storageStep demoExporter scenarioWorld = .ok [localStore] ∧
      (scrape demoExporter scenarioWorld).ch = scenarioSent ∧
      (scrape demoExporter scenarioWorld).ch.Perm scenarioListed :=
  ⟨by decide, by decide,
    (successful_scrape_sequence demoExporter scenarioWorld [web1] [localStore]
      (by decide) (by decide)).2 (by decide) (by decide)⟩

/-- C9: for every endpoint, token id and secret, the requests an exporter
built by `NewExporter` hands to the client are, in this order, a GET of
`<endpoint>/api2/json/nodes/localhost/qemu/` and a GET of
`<endpoint>/api2/json/nodes/localhost/storage/`, each with the one header
Authorization of value `PVEAPIToken=<id>=<secret>`, the three inputs
concatenated as they are. The first is issued whenever its URL parses, the
second whenever the VM step succeeded and its URL parses. -/
theorem requests_shape (endpoint apiToken apiSecret : String) (w : World) :
    (scrape (NewExporter endpoint apiToken apiSecret) w).calls <+:
        [ { method := "GET", url := endpoint ++ "/api2/json/nodes/localhost/qemu/",
            header := [("Authorization", "PVEAPIToken=" ++ apiToken ++ "=" ++ apiSecret)] },
          { method := "GET", url := endpoint ++ "/api2/json/nodes/localhost/storage/",
            header := [("Authorization", "PVEAPIToken=" ++ apiToken ++ "=" ++ apiSecret)] } ] ∧
      (w.urlParses (endpoint ++ "/api2/json/nodes/localhost/qemu/") = true →
        (scrape (NewExporter endpoint apiToken apiSecret) w).calls ≠ []) ∧
      ((∃ vms, vmStep (NewExporter endpoint apiToken apiSecret) w = .ok vms) →
        w.urlParses (endpoint ++ "/api2/json/nodes/localhost/storage/") = true →
        (scrape (NewExporter endpoint apiToken apiSecret) w).calls.length = 2) := by
  have hq : vmRequest (NewExporter endpoint apiToken apiSecret) =
      { method := "GET", url := endpoint ++ "/api2/json/nodes/localhost/qemu/",
        header := [("Authorization", "PVEAPIToken=" ++ apiToken ++ "=" ++ apiSecret)] } := by
    simp [vmRequest, NewExporter, String.append_assoc]
  have hst : storageRequest (NewExporter endpoint apiToken apiSecret) =
      { method := "GET", url := endpoint ++ "/api2/json/nodes/localhost/storage/",
        header := [("Authorization", "PVEAPIToken=" ++ apiToken ++ "=" ++ apiSecret)] } := by
    simp [storageRequest, NewExporter, String.append_assoc]
  rw [← hq, ← hst]
  cases hv : vmStep (NewExporter endpoint apiToken apiSecret) w with
  | error err =>
    rw [scrape_vm_error _ w err hv]
    refine ⟨?_, ?_, ?_⟩
    · unfold issued
      split
      · exact ⟨[_], rfl⟩
      · exact List.nil_prefix
    · intro hu
      have : w.urlParses (vmRequest (NewExporter endpoint apiToken apiSecret)).url = true := by
        rw [hq]
        exact hu
      simp [issued, this]
    · rintro ⟨vms, h⟩
      simp at h
  | ok vms =>
    cases hs : storageStep (NewExporter endpoint apiToken apiSecret) w with
    | error err =>
      rw [scrape_storage_error _ w vms err hv hs]
      refine ⟨?_, by simp, ?_⟩
      · unfold issued
        split
        · exact List.prefix_refl _
        · exact ⟨[_], rfl⟩
      · intro _ hu
        have : w.urlParses (storageRequest (NewExporter endpoint apiToken apiSecret)).url
            = true := by
          rw [hst]
          exact hu
        simp [issued, this]
    | ok dss =>
      rw [scrape_ok _ w vms dss hv hs]
      exact ⟨List.prefix_refl _, by simp, fun _ _ => rfl⟩

theorem map_eq_ok {ε α β : Type} (f : α → β) (r : Except ε α) (b : β)
    (h : r.map f = .ok b) : ∃ a, r = .ok a ∧ f a = b := by
  cases r with
  | error err => simp [Except.map] at h
  | ok a =>
    simp only [Except.map, Except.ok.injEq] at h
    exact ⟨a, rfl, h⟩

theorem ite_eq_ok {ε α : Type} {c : Prop} [Decidable c] {a b : Except ε α} (P : α → Prop)
    (ha : c → ∀ x, a = .ok x → P x) (hb : ¬ c → ∀ x, b = .ok x → P x) :
    ∀ x, (if c then a else b) = .ok x → P x := by
  intro x h
  by_cases hc : c
  · rw [if_pos hc] at h
    exact ha hc x h
  · rw [if_neg hc] at h
    exact hb hc x h

/-- A member whose key does not select an integer field leaves it as it was. -/
theorem setVMField_other (vm : VirtualMachine) (key : String) (v : JSON) :
    ∀ vm', setVMField vm key v = .ok vm' →
      (∀ p ∈ vmIntegerFields, keyIs p.1 key = false → p.2 vm' = p.2 vm) ∧
        (keyIs "cpu" key = false → vm'.CPU = vm.CPU) := by
  unfold setVMField
  repeat' (refine ite_eq_ok _ (fun hc x h => ?_) (fun hc => ?_))
  all_goals
    first
    | (intro x h
       simp only [Except.ok.injEq] at h
       subst h
       exact ⟨fun _ _ _ => rfl, fun _ => rfl⟩)
    | (obtain ⟨y, -, rfl⟩ := map_eq_ok _ _ _ h
       refine ⟨?_, ?_⟩
       · intro p hp hk
         simp only [vmIntegerFields, List.mem_cons, List.mem_singleton, List.not_mem_nil,
           or_false] at hp
         rcases hp with rfl | rfl | rfl | rfl | rfl | rfl | rfl | rfl | rfl | rfl | rfl | rfl <;>
           first
           | rfl
           | (exfalso
              simp only [] at hk
              simp_all only [Bool.true_eq_false, Bool.false_eq_true])
       · intro hk
         first
         | rfl
         | (exfalso
            simp_all only [Bool.true_eq_false, Bool.false_eq_true]))

/-- The same for a `Datastore`. -/
theorem setDatastoreField_other (d : Datastore) (key : String) (v : JSON) :
    ∀ d', setDatastoreField d key v = .ok d' →
      ∀ p ∈ datastoreIntegerFields, keyIs p.1 key = false → p.2 d' = p.2 d := by
  unfold setDatastoreField
  repeat' (refine ite_eq_ok _ (fun hc x h => ?_) (fun hc => ?_))
  all_goals
    first
    | (intro x h
       simp only [Except.ok.injEq] at h
       subst h
       exact fun _ _ _ => rfl)
    | (obtain ⟨y, -, rfl⟩ := map_eq_ok _ _ _ h
       intro p hp hk
       simp only [datastoreIntegerFields, List.mem_cons, List.mem_singleton, List.not_mem_nil,
         or_false] at hp
       rcases hp with rfl | rfl | rfl | rfl <;>
         first
         | rfl
         | (exfalso
            simp only [] at hk
            simp_all only [Bool.true_eq_false, Bool.false_eq_true]))

theorem storeMembers_vm_lacks (fs : List (String × JSON)) :
    ∀ vm vm', storeMembers setVMField fs vm = .ok vm' →
      (∀ p ∈ vmIntegerFields, lacksField p.1 fs → p.2 vm' = p.2 vm) ∧
        (lacksField "cpu" fs → vm'.CPU = vm.CPU) := by
  induction fs with
  | nil =>
    intro vm vm' h
    simp only [storeMembers, Except.ok.injEq] at h
    subst h
    exact ⟨fun _ _ _ => rfl, fun _ => rfl⟩
  | cons kv fs ih =>
    intro vm vm' h
    obtain ⟨key, v⟩ := kv
    simp only [storeMembers] at h
    cases hset : setVMField vm key v with
    | error err => simp [hset] at h
    | ok next =>
      simp only [hset] at h
      have h1 := setVMField_other vm key v next hset
      have h2 := ih next vm' h
      refine ⟨?_, ?_⟩
      · intro p hp hl
        rw [h2.1 p hp (fun kv hkv => hl kv (List.mem_cons_of_mem _ hkv)),
          h1.1 p hp (hl (key, v) (List.mem_cons_self _ _))]
      · intro hl
        rw [h2.2 (fun kv hkv => hl kv (List.mem_cons_of_mem _ hkv)),
          h1.2 (hl (key, v) (List.mem_cons_self _ _))]

theorem storeMembers_datastore_lacks (fs : List (String × JSON)) :
    ∀ d d', storeMembers setDatastoreField fs d = .ok d' →
      ∀ p ∈ datastoreIntegerFields, lacksField p.1 fs → p.2 d' = p.2 d := by
  induction fs with
  | nil =>
    intro d d' h
    simp only [storeMembers, Except.ok.injEq] at h
    subst h
    exact fun _ _ _ => rfl
  | cons kv fs ih =>
    intro d d' h
    obtain ⟨key, v⟩ := kv
    simp only [storeMembers] at h
    cases hset : setDatastoreField d key v with
    | error err => simp [hset] at h
    | ok next =>
      simp only [hset] at h
      intro p hp hl
      rw [ih next d' h p hp (fun kv hkv => hl kv (List.mem_cons_of_mem _ hkv)),
        setDatastoreField_other d key v next hset p hp (hl (key, v) (List.mem_cons_self _ _))]

/-- Into a slice without written slots every element is stored from the zero
value, one record per element. -/
theorem storeElements_fresh {α : Type} (store : JSON → α → Except Error α) (zero : α) :
    ∀ (vs : List JSON) (xs : List α), storeElements store zero vs [] = .ok xs →
      xs.length = vs.length ∧
        ∀ (i : Nat) (v : JSON) (x : α), vs[i]? = some v → xs[i]? = some x →
          store v zero = .ok x := by
  intro vs
  induction vs with
  | nil =>
    intro xs h
    simp only [storeElements, Except.ok.injEq] at h
    subst h
    exact ⟨rfl, fun i v x hv => by simp at hv⟩
  | cons v0 vs ih =>
    intro xs h
    simp only [storeElements, List.headD_nil, List.tail_nil] at h
    cases h0 : store v0 zero with
    | error err => simp [h0] at h
    | ok x0 =>
      simp only [h0] at h
      cases hrest : storeElements store zero vs [] with
      | error err => simp [hrest] at h
      | ok xs' =>
        simp only [hrest, Except.ok.injEq] at h
        subst h
        obtain ⟨hlen, hget⟩ := ih xs' hrest
        refine ⟨by simp [hlen], ?_⟩
        intro i v x hv hx
        cases i with
        | zero =>
          simp only [List.getElem?_cons_zero, Option.some.injEq] at hv hx
          subst hv
          subst hx
          exact h0
        | succ j =>
          simp only [List.getElem?_cons_succ] at hv hx
          exact hget j v x hv hx

theorem storeMembers_append {α : Type} (setField : α → String → JSON → Except Error α)
    (a b : List (String × JSON)) :
    ∀ r, storeMembers setField (a ++ b) r =
      match storeMembers setField a r with
      | .error err => .error err
      | .ok r' => storeMembers setField b r' := by
  induction a with
  | nil => intro r; rfl
  | cons kv a ih =>
    intro r
    obtain ⟨key, v⟩ := kv
    simp only [List.cons_append, storeMembers]
    cases setField r key v with
    | error err => rfl
    | ok next => exact ih next

theorem storeMembers_vmResponse_skip (ms : List (String × JSON))
    (h : lacksField "data" ms) (r : VirtualMachineResponse) :
    storeMembers setVMResponseField ms r = .ok r := by
  induction ms with
  | nil => rfl
  | cons kv ms ih =>
    obtain ⟨key, v⟩ := kv
    have hk : keyIs "data" key = false := h (key, v) (List.mem_cons_self _ _)
    simp only [storeMembers, setVMResponseField, hk, Bool.false_eq_true, if_false]
    exact ih (fun kv hkv => h kv (List.mem_cons_of_mem _ hkv))

theorem storeMembers_datastoreResponse_skip (ms : List (String × JSON))
    (h : lacksField "data" ms) (r : DatastoreResponse) :
    storeMembers setDatastoreResponseField ms r = .ok r := by
  induction ms with
  | nil => rfl
  | cons kv ms ih =>
    obtain ⟨key, v⟩ := kv
    have hk : keyIs "data" key = false := h (key, v) (List.mem_cons_self _ _)
    simp only [storeMembers, setDatastoreResponseField, hk, Bool.false_eq_true, if_false]
    exact ih (fun kv hkv => h kv (List.mem_cons_of_mem _ hkv))

/-- An object with one member for `data`, an array: the records are the
elements, each stored from the zero value. -/
theorem storeMembers_vmResponse_single (pre post : List (String × JSON)) (key : String)
    (elems : List JSON) (r : VirtualMachineResponse)
    (hkey : keyIs "data" key = true) (hpre : lacksField "data" pre)
    (hpost : lacksField "data" post)
    (h : storeMembers setVMResponseField (pre ++ (key, .arr elems) :: post)
      { Data := Slice.nil } = .ok r) :
    storeElements storeVM VirtualMachine.zero elems [] = .ok r.Data.elems := by
  rw [storeMembers_append, storeMembers_vmResponse_skip pre hpre] at h
  simp only [storeMembers, setVMResponseField, hkey, if_true] at h
  cases elems with
  | nil =>
    simp only [storeSlice, Except.map] at h
    rw [storeMembers_vmResponse_skip post hpost] at h
    simp only [Except.ok.injEq] at h
    subst h
    rfl
  | cons el els =>
    simp only [storeSlice, Slice.nil, List.append_nil] at h
    cases hx : storeElements storeVM VirtualMachine.zero (el :: els) [] with
    | error err => simp [hx, Except.map] at h
    | ok xs =>
      simp only [hx, Except.map] at h
      rw [storeMembers_vmResponse_skip post hpost] at h
      simp only [Except.ok.injEq] at h
      subst h
      rfl

theorem storeMembers_datastoreResponse_single (pre post : List (String × JSON)) (key : String)
    (elems : List JSON) (r : DatastoreResponse)
    (hkey : keyIs "data" key = true) (hpre : lacksField "data" pre)
    (hpost : lacksField "data" post)
    (h : storeMembers setDatastoreResponseField (pre ++ (key, .arr elems) :: post)
      { Data := Slice.nil } = .ok r) :
    storeElements storeDatastore Datastore.zero elems [] = .ok r.Data.elems := by
  rw [storeMembers_append, storeMembers_datastoreResponse_skip pre hpre] at h
  simp only [storeMembers, setDatastoreResponseField, hkey, if_true] at h
  cases elems with
  | nil =>
    simp only [storeSlice, Except.map] at h
    rw [storeMembers_datastoreResponse_skip post hpost] at h
    simp only [Except.ok.injEq] at h
    subst h
    rfl
  | cons el els =>
    simp only [storeSlice, Slice.nil, List.append_nil] at h
    cases hx : storeElements storeDatastore Datastore.zero (el :: els) [] with
    | error err => simp [hx, Except.map] at h
    | ok xs =>
      simp only [hx, Except.map] at h
      rw [storeMembers_datastoreResponse_skip post hpost] at h
      simp only [Except.ok.injEq] at h
      subst h
      rfl

/-- C6, as amended: decoding a VM-list or datastore-list payload fails with a
syntax error when the payload is not valid JSON, and with a type error when
its top-level value is an array, a string, a number or a boolean. A
top-level `null` and an object without a `data` member decode without error,
to no records. When an object with one `data` member, an array, decodes,
there is one record per element, and in the record of an element object
every numeric field that no member of the element names is zero. -/
theorem unmarshal_outcomes (body : String) :
    (parseJSON body = none →
      unmarshalVMResponse body = .error .malformed ∧
        unmarshalDatastoreResponse body = .error .malformed) ∧
    (∀ v, parseJSON body = some v → isObjectOrNull v = false →
      unmarshalVMResponse body
          = .error (.unmarshalType (kindName v) "main.VirtualMachineResponse") ∧
        unmarshalDatastoreResponse body
          = .error (.unmarshalType (kindName v) "main.DatastoreResponse")) ∧
    (parseJSON body = some .null →
      unmarshalVMResponse body = .ok { Data := Slice.nil } ∧
        unmarshalDatastoreResponse body = .ok { Data := Slice.nil }) ∧
    (∀ ms, parseJSON body = some (.obj ms) → lacksField "data" ms →
      unmarshalVMResponse body = .ok { Data := Slice.nil } ∧
        unmarshalDatastoreResponse body = .ok { Data := Slice.nil }) ∧
    (∀ pre key elems post, parseJSON body = some (.obj (pre ++ (key, .arr elems) :: post)) →
      keyIs "data" key = true → lacksField "data" pre → lacksField "data" post →
      (∀ r, unmarshalVMResponse body = .ok r →
        r.Data.elems.length = elems.length ∧
          ∀ (i : Nat) (fs : List (String × JSON)) (x : VirtualMachine),
            elems[i]? = some (.obj fs) → r.Data.elems[i]? = some x →
            (∀ p ∈ vmIntegerFields, lacksField p.1 fs → p.2 x = 0) ∧
              (lacksField "cpu" fs → x.CPU = .ofInt 0)) ∧
      (∀ r, unmarshalDatastoreResponse body = .ok r →
        r.Data.elems.length = elems.length ∧
          ∀ (i : Nat) (fs : List (String × JSON)) (x : Datastore),
            elems[i]? = some (.obj fs) → r.Data.elems[i]? = some x →
            ∀ p ∈ datastoreIntegerFields, lacksField p.1 fs → p.2 x = 0)) := by
  refine ⟨?_, ?_, ?_, ?_, ?_⟩
  · intro h
    simp [unmarshalVMResponse, unmarshalDatastoreResponse, h]
  · intro v h hk
    unfold unmarshalVMResponse unmarshalDatastoreResponse
    rw [h]
    cases v <;> simp [isObjectOrNull] at hk <;> exact ⟨rfl, rfl⟩
  · intro h
    simp [unmarshalVMResponse, unmarshalDatastoreResponse, h]
  · intro ms h hl
    simp only [unmarshalVMResponse, unmarshalDatastoreResponse, h]
    exact ⟨storeMembers_vmResponse_skip ms hl _, storeMembers_datastoreResponse_skip ms hl _⟩
  · intro pre key elems post h hkey hpre hpost
    refine ⟨?_, ?_⟩
    · intro r hr
      simp only [unmarshalVMResponse, h] at hr
      have hel := storeMembers_vmResponse_single pre post key elems r hkey hpre hpost hr
      obtain ⟨hlen, hget⟩ := storeElements_fresh storeVM VirtualMachine.zero elems _ hel
      refine ⟨hlen, ?_⟩
      intro i fs x hi hx
      have hst := hget i (.obj fs) x hi hx
      simp only [storeVM] at hst
      have hz := storeMembers_vm_lacks fs VirtualMachine.zero x hst
      refine ⟨?_, ?_⟩
      · intro p hp hl
        rw [hz.1 p hp hl]
        simp only [vmIntegerFields, List.mem_cons, List.mem_singleton, List.not_mem_nil,
          or_false] at hp
        rcases hp with rfl | rfl | rfl | rfl | rfl | rfl | rfl | rfl | rfl | rfl | rfl | rfl <;>
          rfl
      · intro hl
        rw [hz.2 hl]
        rfl
    · intro r hr
      simp only [unmarshalDatastoreResponse, h] at hr
      have hel := storeMembers_datastoreResponse_single pre post key elems r hkey hpre hpost hr
      obtain ⟨hlen, hget⟩ := storeElements_fresh storeDatastore Datastore.zero elems _ hel
      refine ⟨hlen, ?_⟩
      intro i fs x hi hx
      have hst := hget i (.obj fs) x hi hx
      simp only [storeDatastore] at hst
      intro p hp hl
      rw [storeMembers_datastore_lacks fs Datastore.zero x hst p hp hl]
      simp only [datastoreIntegerFields, List.mem_cons, List.mem_singleton, List.not_mem_nil,
        or_false] at hp
      rcases hp with rfl | rfl | rfl | rfl <;> rfl

set_option maxRecDepth 100000 in
/-- The amended C6 at two payloads: an array at top level, and an object
whose one record names only its id. -/
theorem unmarshal_outcomes_witness :
    unmarshalVMResponse "[]"
        = .error (.unmarshalType "array" "main.VirtualMachineResponse") ∧
      ∀ r, unmarshalVMResponse "\x7b\"data\":[\x7b\"vmid\":7\x7d]\x7d" = .ok r →
        r.Data.elems.length = 1 ∧
          ∀ x, r.Data.elems[0]? = some x → x.NetIn = 0 ∧ x.CPU = .ofInt 0 :=
  ⟨((unmarshal_outcomes "[]").2.1 (.arr []) (by rfl) (by rfl)).1,
    fun r hr =>
      have h := ((unmarshal_outcomes "\x7b\"data\":[\x7b\"vmid\":7\x7d]\x7d").2.2.2.2 [] "data"
        [.obj [("vmid", .num "7")]] [] (by rfl) (by decide)
        (fun _ hkv => absurd hkv (List.not_mem_nil _))
        (fun _ hkv => absurd hkv (List.not_mem_nil _))).1 r hr
      ⟨h.1, fun x hx =>
        have hx' := h.2 0 [("vmid", .num "7")] x rfl hx
        ⟨hx'.1 ("netin", fun vm => vm.NetIn) (by simp [vmIntegerFields])
            (fun kv hkv => by
              rw [List.mem_singleton.mp hkv]
              decide),
          hx'.2 (fun kv hkv => by
            rw [List.mem_singleton.mp hkv]
            decide)⟩⟩⟩

set_option maxRecDepth 100000 in
/-- C6 as stated fails: `null` and `{}` are no decode errors but payloads of
no records, and a scrape that receives them reports `up` 1. A field an
element does not name is not zero either when an earlier `data` member has
filled the record's slot. -/
theorem null_and_empty_object_decode :
    unmarshalVMResponse "null" = .ok { Data := Slice.nil } ∧
      unmarshalVMResponse "\x7b\x7d" = .ok { Data := Slice.nil } ∧
      unmarshalDatastoreResponse "null" = .ok { Data := Slice.nil } ∧
      unmarshalDatastoreResponse "\x7b\x7d" = .ok { Data := Slice.nil } ∧
      (scrape demoExporter (serving "https://pve:8006" 200 (.ok "\x7b\x7d") (.ok "null"))).ch
        = [upSample 1] ∧
      (unmarshalVMResponse "\x7b\"data\":[\x7b\"vmid\":5\x7d],\"data\":[\x7b\x7d]\x7d").map
          (fun r => r.Data.elems.map (fun vm => vm.VMID))
        = .ok [5] := by
  decide

end PveExporter
